import Mathlib

/-!
Verification of the AGICraft voxel chunk core (grid accessors and the greedy
meshing algorithm).  The definitions below are a shallow embedding of the
TypeScript sources: the `Chunk` class of `src/renderer.ts` (the cave-capable
variant, `CHUNK_HEIGHT = 64`) together with the constants of `src/types.ts`.
The simpler variant (`src/unnamed/part_004`) differs only in `CHUNK_HEIGHT`
and the world offset; the embedded variant is the one cited by the claims.

Modelling conventions:
  * the `Uint8Array` block store is a total function `Nat → Nat`; a write
    stores the value modulo 256 (JavaScript `Uint8Array` semantics);
  * coordinates handed to `getBlock` are `Int` (the mesher queries neighbours
    such as `y - 1`, which are negative in the source as well);
  * `Float32Array` vertex data is modelled by exact rationals: every number
    produced by the mesher is either an integer corner coordinate or a
    product of the fixed decimal color/brightness constants, and none of the
    verified claims depends on floating-point rounding;
  * the imperative while-loops of the greedy merge advance their cursor by at
    least one each iteration and are bounded by the mask dimensions; they are
    embedded as fuel recursions whose fuel is exactly that bound.
-/

namespace AGICraft

/-- Block type codes from `src/types.ts` (`enum BlockType`): an opaque small
integer, 0 denoting air/empty. -/
abbrev BlockType := Nat

/-- `BlockType.AIR = 0` from `src/types.ts`. -/
def BlockType.AIR : BlockType := 0

/-- `CHUNK_SIZE = 16` from `src/types.ts`. -/
def CHUNK_SIZE : Nat := 16

/-- `CHUNK_HEIGHT = 64` from `src/types.ts` (cave-capable variant). -/
def CHUNK_HEIGHT : Nat := 64

/-- The six axis-aligned face directions (`enum Face` in `src/types.ts`),
listed in the source's numeric order 0..5. -/
inductive Face where
  | FRONT
  | BACK
  | TOP
  | BOTTOM
  | LEFT
  | RIGHT
deriving DecidableEq, Repr

/-- `FACE_NORMALS` from `src/types.ts`, indexed by face. -/
def FACE_NORMALS : Face → Int × Int × Int
  | .FRONT => (0, 0, 1)
  | .BACK => (0, 0, -1)
  | .TOP => (0, 1, 0)
  | .BOTTOM => (0, -1, 0)
  | .LEFT => (-1, 0, 0)
  | .RIGHT => (1, 0, 0)

/-- The in-range test of `Chunk.getBlock` / `Chunk.setBlock`
(`src/renderer.ts` lines 628 and 639): the negation of
`x < 0 || x >= CHUNK_SIZE || y < 0 || y >= CHUNK_HEIGHT || z < 0 || z >= CHUNK_SIZE`. -/
def inRange (x y z : Int) : Prop :=
  0 ≤ x ∧ x < CHUNK_SIZE ∧ 0 ≤ y ∧ y < CHUNK_HEIGHT ∧ 0 ≤ z ∧ z < CHUNK_SIZE

instance (x y z : Int) : Decidable (inRange x y z) := by
  unfold inRange
  exact inferInstance

/-- The linear index `x + z * CHUNK_SIZE + y * CHUNK_SIZE * CHUNK_SIZE` of
`src/renderer.ts` line 631 (only evaluated on in-range coordinates). -/
def blockIndex (x y z : Int) : Nat :=
  x.toNat + z.toNat * CHUNK_SIZE + y.toNat * (CHUNK_SIZE * CHUNK_SIZE)

/-- `Chunk.getBlock` (`src/renderer.ts` lines 627-633) over an explicit block
store `B`: out-of-range coordinates return `AIR`, in-range coordinates read
the store at the linear index. -/
def getBlockFn (B : Nat → Nat) (x y z : Int) : BlockType :=
  if inRange x y z then B (blockIndex x y z) else BlockType.AIR

/-- The chunk state of `src/renderer.ts` (`class Chunk`): the block store,
the chunk-grid coordinates `x`, `z`, and the mesh output fields `vertices`,
`vertexCount`, `isDirty`. -/
structure Chunk where
  x : Int
  z : Int
  blocks : Nat → Nat
  vertices : List ℚ
  vertexCount : Nat
  isDirty : Bool

/-- `Chunk.getBlock` (`src/renderer.ts` lines 627-633). -/
def Chunk.getBlock (c : Chunk) (x y z : Int) : BlockType :=
  getBlockFn c.blocks x y z

/-- `Chunk.setBlock` (`src/renderer.ts` lines 638-645): a silent no-op out of
range; otherwise stores the value (as a byte, per `Uint8Array`) and sets the
dirty flag. -/
def Chunk.setBlock (c : Chunk) (x y z : Int) (t : Nat) : Chunk :=
  if inRange x y z then
    { c with
      blocks := fun i => if i = blockIndex x y z then t % 256 else c.blocks i,
      isDirty := true }
  else c

/-- The neighbour coordinate used by `Chunk.shouldRenderFace`
(`src/renderer.ts` lines 727-736): one step along the face normal. -/
def faceNeighbor (x y z : Int) : Face → Int × Int × Int
  | .FRONT => (x, y, z + 1)
  | .BACK => (x, y, z - 1)
  | .TOP => (x, y + 1, z)
  | .BOTTOM => (x, y - 1, z)
  | .LEFT => (x - 1, y, z)
  | .RIGHT => (x + 1, y, z)

/-- `Chunk.shouldRenderFace` (`src/renderer.ts` lines 723-740): the block is
non-air and its neighbour along the face normal is air. -/
def shouldRenderFace (B : Nat → Nat) (x y z : Int) (f : Face) : Bool :=
  if getBlockFn B x y z = BlockType.AIR then false
  else
    let n := faceNeighbor x y z f
    decide (getBlockFn B n.1 n.2.1 n.2.2 = BlockType.AIR)

/-- `Chunk.getFaceDimensions` (`src/renderer.ts` lines 944-956): the
`(width, height)` of the 2D mask for a direction. -/
def getFaceDimensions : Face → Nat × Nat
  | .FRONT => (CHUNK_SIZE, CHUNK_HEIGHT)
  | .BACK => (CHUNK_SIZE, CHUNK_HEIGHT)
  | .TOP => (CHUNK_SIZE, CHUNK_SIZE)
  | .BOTTOM => (CHUNK_SIZE, CHUNK_SIZE)
  | .LEFT => (CHUNK_SIZE, CHUNK_HEIGHT)
  | .RIGHT => (CHUNK_SIZE, CHUNK_HEIGHT)

/-- `Chunk.getCoords` (`src/renderer.ts` lines 961-978): map mask coordinates
`(u, v)` at sweep depth `d` to grid coordinates for a face. -/
def getCoords (u v d : Nat) : Face → Int × Int × Int
  | .FRONT => ((u : Int), (v : Int), (d : Int))
  | .BACK => ((u : Int), (v : Int), (CHUNK_SIZE : Int) - 1 - (d : Int))
  | .TOP => ((u : Int), (d : Int), (v : Int))
  | .BOTTOM => ((u : Int), (CHUNK_HEIGHT : Int) - 1 - (d : Int), (v : Int))
  | .LEFT => ((d : Int), (v : Int), (u : Int))
  | .RIGHT => ((CHUNK_SIZE : Int) - 1 - (d : Int), (v : Int), (u : Int))

/-- The per-slice exposure mask of `Chunk.buildMesh` (`src/renderer.ts` line
760): a 2D map from mask coordinates to either `none` ("no face", the array's
`null`) or the exposed cell's block type. -/
abbrev Mask := Nat → Nat → Option BlockType

/-- Mask construction (`src/renderer.ts` lines 763-771): cell `(u, v)` of the
slice at depth `d` holds the block type iff the face is exposed there. -/
def buildMask (B : Nat → Nat) (f : Face) (d : Nat) : Mask := fun u v =>
  let p := getCoords u v d f
  if shouldRenderFace B p.1 p.2.1 p.2.2 f then some (getBlockFn B p.1 p.2.1 p.2.2)
  else none

/-- The quad-width scan of `Chunk.buildMesh` (`src/renderer.ts` lines
784-787): starting from an accumulated width `w`, keep extending while
`u + w < width` and the mask cell to the right still holds `bt`.  The while
loop advances `w` by one per iteration and is bounded by `width`, which is
the fuel supplied at the call site. -/
def computeWidth (m : Mask) (width u v bt : Nat) : Nat → Nat → Nat
  | 0, w => w
  | fuel + 1, w =>
    if u + w < width ∧ m (u + w) v = some bt then
      computeWidth m width u v bt fuel (w + 1)
    else w

/-- The quad-height scan of `Chunk.buildMesh` (`src/renderer.ts` lines
789-800): extend `h` while `v + h < height` and every cell of the width-`w`
strip in row `v + h` still holds `bt` (the inner `for k` loop with the `done`
flag).  Fuel is `height` at the call site. -/
def computeHeight (m : Mask) (height u v w bt : Nat) : Nat → Nat → Nat
  | 0, h => h
  | fuel + 1, h =>
    if v + h < height ∧ ∀ k < w, m (u + k) (v + h) = some bt then
      computeHeight m height u v w bt fuel (h + 1)
    else h

/-- Clearing the processed rectangle of the mask (`src/renderer.ts` lines
805-810): cells inside `[u0, u0+w) × [v0, v0+h)` become `null`. -/
def maskClear (m : Mask) (u0 v0 w h : Nat) : Mask := fun u v =>
  if u0 ≤ u ∧ u < u0 + w ∧ v0 ≤ v ∧ v < v0 + h then none else m u v

/-- One merged rectangle emitted by the greedy pass of `Chunk.buildMesh`:
mask-space origin `(u, v)`, size `(w, h)` and block type `bt` (the arguments
of the `addQuad` call at `src/renderer.ts` line 803 for a fixed face and
depth). -/
structure Quad where
  u : Nat
  v : Nat
  w : Nat
  h : Nat
  bt : BlockType
deriving DecidableEq, Repr

/-- The inner `for (let u = 0; u < width;)` scan of one mask row
(`src/renderer.ts` lines 775-813): skip `null` cells, otherwise compute the
quad extents, emit the quad, clear the processed rectangle, and resume at
`u + w`.  The cursor advances by at least one per iteration, so fuel `width`
(supplied at the call site) runs the loop to completion. -/
def mergeRow (width height v : Nat) : Nat → Nat → Mask → List Quad × Mask
  | 0, _, m => ([], m)
  | fuel + 1, u, m =>
    if u < width then
      match m u v with
      | none => mergeRow width height v fuel (u + 1) m
      | some bt =>
        let w := computeWidth m width u v bt width 1
        let h := computeHeight m height u v w bt height 1
        let m' := maskClear m u v w h
        let r := mergeRow width height v fuel (u + w) m'
        (⟨u, v, w, h, bt⟩ :: r.1, r.2)
    else ([], m)

/-- The outer `for (let v = 0; ...)` row loop of the greedy pass
(`src/renderer.ts` line 774), threading the mutated mask from row to row.
Fuel counts the remaining rows, starting at `height`. -/
def mergeRows (width height : Nat) : Nat → Nat → Mask → List Quad × Mask
  | 0, _, m => ([], m)
  | fuel + 1, v, m =>
    let r := mergeRow width height v width 0 m
    let r' := mergeRows width height fuel (v + 1) r.2
    (r.1 ++ r'.1, r'.2)

/-- The full greedy merge of one slice's mask (`src/renderer.ts` lines
774-814): the list of emitted quads, in emission order. -/
def mergeSlice (width height : Nat) (m : Mask) : List Quad :=
  (mergeRows width height height 0 m).1

/-- The quads emitted for one face direction and depth slice of
`Chunk.buildMesh` (mask build at lines 763-771 followed by the greedy merge
at lines 774-814 of `src/renderer.ts`). -/
def sliceQuads (B : Nat → Nat) (f : Face) (d : Nat) : List Quad :=
  mergeSlice (getFaceDimensions f).1 (getFaceDimensions f).2 (buildMask B f d)

/-- The six face directions in the order of the source's
`for (let face = 0; face < 6; face++)` loop (`src/renderer.ts` line 750). -/
def faceList : List Face :=
  [.FRONT, .BACK, .TOP, .BOTTOM, .LEFT, .RIGHT]

/-- The depth values swept by the slice loop of `Chunk.buildMesh`
(`src/renderer.ts` line 759): `for (let d = 0; d < CHUNK_HEIGHT; d++)`,
independent of the face direction (the `face` argument is unused, exactly as
in the source). -/
def meshDepthRange (_f : Face) : List Nat := List.range CHUNK_HEIGHT

/-- All quads emitted by one `Chunk.buildMesh` call, tagged with their face
direction and depth slice, in emission order. -/
def buildMeshQuads (B : Nat → Nat) : List (Face × Nat × Quad) :=
  faceList.flatMap fun f =>
    (meshDepthRange f).flatMap fun d =>
      (sliceQuads B f d).map fun q => (f, d, q)

/-- `BLOCK_COLORS` from `src/types.ts`, as exact rationals.  The source
record is only defined for the 13 enum values; other codes (representable in
the byte store but never produced by the game) default to black here, where
the TypeScript lookup would yield `undefined`. -/
def BLOCK_COLORS : BlockType → ℚ × ℚ × ℚ
  | 0 => (0, 0, 0)
  | 1 => (2/10, 8/10, 2/10)
  | 2 => (5/10, 3/10, 1/10)
  | 3 => (5/10, 5/10, 5/10)
  | 4 => (4/10, 2/10, 0)
  | 5 => (0, 6/10, 0)
  | 6 => (9/10, 9/10, 6/10)
  | 7 => (2/10, 2/10, 2/10)
  | 8 => (6/10, 5/10, 4/10)
  | 9 => (0, 8/10, 8/10)
  | 10 => (7/10, 5/10, 3/10)
  | 11 => (8/10, 4/10, 2/10)
  | 12 => (3/10, 3/10, 3/10)
  | _ => (0, 0, 0)

/-- The flat shading factor of `Chunk.addQuad` (`src/renderer.ts` line 841):
`0.5 + ny * 0.3 + 0.2` where `ny` is the face normal's Y component. -/
def brightness (f : Face) : ℚ :=
  5/10 + ((FACE_NORMALS f).2.1 : ℚ) * (3/10) + 2/10

/-- `Chunk.getQuadCorners` (`src/renderer.ts` lines 875-922): the four
corners of the quad rectangle as a flat 12-entry list, in the source's
hand-assigned per-face winding order. -/
def getQuadCorners (x y z : Int) (w h : Nat) : Face → List Int
  | .FRONT =>
    [x, y, z + 1, x + w, y, z + 1, x + w, y + h, z + 1, x, y + h, z + 1]
  | .BACK =>
    [x + w, y, z, x, y, z, x, y + h, z, x + w, y + h, z]
  | .TOP =>
    [x, y + 1, z + h, x + w, y + 1, z + h, x + w, y + 1, z, x, y + 1, z]
  | .BOTTOM =>
    [x, y, z, x + w, y, z, x + w, y, z + h, x, y, z + h]
  | .LEFT =>
    [x, y, z, x, y, z + w, x, y + h, z + w, x, y + h, z]
  | .RIGHT =>
    [x + 1, y, z + w, x + 1, y, z, x + 1, y + h, z, x + 1, y + h, z + w]

/-- The world-offset pass of `Chunk.addQuad` (`src/renderer.ts` lines
853-858): add `x * CHUNK_SIZE` to every X component and `z * CHUNK_SIZE` to
every Z component of the corner list. -/
def applyWorldOffset (ox oz : Int) : List Int → List Int
  | [x0, y0, z0, x1, y1, z1, x2, y2, z2, x3, y3, z3] =>
    [x0 + ox, y0, z0 + oz, x1 + ox, y1, z1 + oz,
     x2 + ox, y2, z2 + oz, x3 + ox, y3, z3 + oz]
  | l => l

/-- One output vertex: position followed by the shaded color (the 6 floats of
one `vertices.push(...)` call in `src/renderer.ts` lines 862-869). -/
def vertexFloats (px py pz : Int) (r g b : ℚ) : List ℚ :=
  [(px : ℚ), (py : ℚ), (pz : ℚ), r, g, b]

/-- `Chunk.addQuad` (`src/renderer.ts` lines 826-870): compute the quad's
grid origin, shaded color and world-offset corners, then push the six
vertices of the two triangles `(v0, v1, v2)` and `(v0, v2, v3)`. -/
def addQuad (cx cz : Int) (f : Face) (d : Nat) (q : Quad) : List ℚ :=
  let p := getCoords q.u q.v d f
  let color := BLOCK_COLORS q.bt
  let br := brightness f
  let r := color.1 * br
  let g := color.2.1 * br
  let b := color.2.2 * br
  let corners :=
    applyWorldOffset (cx * CHUNK_SIZE) (cz * CHUNK_SIZE)
      (getQuadCorners p.1 p.2.1 p.2.2 q.w q.h f)
  match corners with
  | [x0, y0, z0, x1, y1, z1, x2, y2, z2, x3, y3, z3] =>
    vertexFloats x0 y0 z0 r g b ++ vertexFloats x1 y1 z1 r g b ++
    vertexFloats x2 y2 z2 r g b ++ vertexFloats x0 y0 z0 r g b ++
    vertexFloats x2 y2 z2 r g b ++ vertexFloats x3 y3 z3 r g b
  | _ => []

/-- The flat vertex stream produced by one `Chunk.buildMesh` call: the
concatenation of `addQuad` output over all emitted quads in emission order
(the source pushes into a single `vertices` array while merging). -/
def buildMeshVertices (c : Chunk) : List ℚ :=
  (buildMeshQuads c.blocks).flatMap fun p => addQuad c.x c.z p.1 p.2.1 p.2.2

/-- `Chunk.buildMesh` (`src/renderer.ts` lines 746-821): rebuild the vertex
buffer from the block store, set `vertexCount = vertices.length / 6`
(stride: position 3 + color 3) and clear the dirty flag. -/
def Chunk.buildMesh (c : Chunk) : Chunk :=
  let verts := buildMeshVertices c
  { c with vertices := verts, vertexCount := verts.length / 6, isDirty := false }

/-- Modelled from the spec: one output vertex of the lighting-capable
variant, position followed by the face normal and the shaded color (9
floats, spec §6). -/
def vertexFloatsLighting (px py pz : Int) (n : Int × Int × Int) (r g b : ℚ) : List ℚ :=
  [(px : ℚ), (py : ℚ), (pz : ℚ), (n.1 : ℚ), (n.2.1 : ℚ), (n.2.2 : ℚ), r, g, b]

/-- Modelled from the spec: the lighting-capable mesher variant's quad
emission.  The repository ships the lighting-capable renderer
(`src/unnamed/part_003`, vertex `arrayStride: 36` = 9 floats: position(3) +
normal(3) + color(3), with a WGSL shader consuming the normal), but the chunk
mesher that produces that 9-float stream is not among the provided sources —
only this 6-float variant is.  Following spec §6, each vertex carries
position, the face normal and the shaded color, with the same two-triangle
fan as `addQuad`. -/
def addQuadLighting (cx cz : Int) (f : Face) (d : Nat) (q : Quad) : List ℚ :=
  let p := getCoords q.u q.v d f
  let color := BLOCK_COLORS q.bt
  let br := brightness f
  let r := color.1 * br
  let g := color.2.1 * br
  let b := color.2.2 * br
  let n := FACE_NORMALS f
  let corners :=
    applyWorldOffset (cx * CHUNK_SIZE) (cz * CHUNK_SIZE)
      (getQuadCorners p.1 p.2.1 p.2.2 q.w q.h f)
  match corners with
  | [x0, y0, z0, x1, y1, z1, x2, y2, z2, x3, y3, z3] =>
    vertexFloatsLighting x0 y0 z0 n r g b ++ vertexFloatsLighting x1 y1 z1 n r g b ++
    vertexFloatsLighting x2 y2 z2 n r g b ++ vertexFloatsLighting x0 y0 z0 n r g b ++
    vertexFloatsLighting x2 y2 z2 n r g b ++ vertexFloatsLighting x3 y3 z3 n r g b
  | _ => []

/-- Modelled from the spec: the flat vertex stream of the lighting-capable
variant's mesh rebuild (spec §6: stride position(3) + normal(3) + color(3) =
9 floats per vertex). -/
def buildMeshVerticesLighting (c : Chunk) : List ℚ :=
  (buildMeshQuads c.blocks).flatMap fun p => addQuadLighting c.x c.z p.1 p.2.1 p.2.2

/-- Modelled from the spec: the lighting-capable variant's mesh rebuild,
which exposes `vertexCount = vertices.length / 9` for its 9-float stride. -/
def Chunk.buildMeshLighting (c : Chunk) : Chunk :=
  let verts := buildMeshVerticesLighting c
  { c with vertices := verts, vertexCount := verts.length / 9, isDirty := false }

/-- Two triangles over four quad corners in the fixed fan order
`(v0, v1, v2)` and `(v0, v2, v3)`, all six vertices sharing one shaded
color — the vertex pattern pushed by `Chunk.addQuad`. -/
def fanVertices (c0 c1 c2 c3 : Int × Int × Int) (r g b : ℚ) : List ℚ :=
  vertexFloats c0.1 c0.2.1 c0.2.2 r g b ++ vertexFloats c1.1 c1.2.1 c1.2.2 r g b ++
  vertexFloats c2.1 c2.2.1 c2.2.2 r g b ++ vertexFloats c0.1 c0.2.1 c0.2.2 r g b ++
  vertexFloats c2.1 c2.2.1 c2.2.2 r g b ++ vertexFloats c3.1 c3.2.1 c3.2.2 r g b

lemma addQuad_fan (cx cz : Int) (f : Face) (d : Nat) (q : Quad) :
    ∃ (c0 c1 c2 c3 : Int × Int × Int) (r g b : ℚ),
      addQuad cx cz f d q = fanVertices c0 c1 c2 c3 r g b := by
  cases f with
  | FRONT =>
    exact ⟨((q.u : Int) + cx * CHUNK_SIZE, (q.v : Int), (d : Int) + 1 + cz * CHUNK_SIZE),
      ((q.u : Int) + q.w + cx * CHUNK_SIZE, (q.v : Int), (d : Int) + 1 + cz * CHUNK_SIZE),
      ((q.u : Int) + q.w + cx * CHUNK_SIZE, (q.v : Int) + q.h, (d : Int) + 1 + cz * CHUNK_SIZE),
      ((q.u : Int) + cx * CHUNK_SIZE, (q.v : Int) + q.h, (d : Int) + 1 + cz * CHUNK_SIZE),
      (BLOCK_COLORS q.bt).1 * brightness .FRONT,
      (BLOCK_COLORS q.bt).2.1 * brightness .FRONT,
      (BLOCK_COLORS q.bt).2.2 * brightness .FRONT, rfl⟩
  | BACK =>
    exact ⟨((q.u : Int) + q.w + cx * CHUNK_SIZE, (q.v : Int),
        (CHUNK_SIZE : Int) - 1 - (d : Int) + cz * CHUNK_SIZE),
      ((q.u : Int) + cx * CHUNK_SIZE, (q.v : Int),
        (CHUNK_SIZE : Int) - 1 - (d : Int) + cz * CHUNK_SIZE),
      ((q.u : Int) + cx * CHUNK_SIZE, (q.v : Int) + q.h,
        (CHUNK_SIZE : Int) - 1 - (d : Int) + cz * CHUNK_SIZE),
      ((q.u : Int) + q.w + cx * CHUNK_SIZE, (q.v : Int) + q.h,
        (CHUNK_SIZE : Int) - 1 - (d : Int) + cz * CHUNK_SIZE),
      (BLOCK_COLORS q.bt).1 * brightness .BACK,
      (BLOCK_COLORS q.bt).2.1 * brightness .BACK,
      (BLOCK_COLORS q.bt).2.2 * brightness .BACK, rfl⟩
  | TOP =>
    exact ⟨((q.u : Int) + cx * CHUNK_SIZE, (d : Int) + 1, (q.v : Int) + q.h + cz * CHUNK_SIZE),
      ((q.u : Int) + q.w + cx * CHUNK_SIZE, (d : Int) + 1, (q.v : Int) + q.h + cz * CHUNK_SIZE),
      ((q.u : Int) + q.w + cx * CHUNK_SIZE, (d : Int) + 1, (q.v : Int) + cz * CHUNK_SIZE),
      ((q.u : Int) + cx * CHUNK_SIZE, (d : Int) + 1, (q.v : Int) + cz * CHUNK_SIZE),
      (BLOCK_COLORS q.bt).1 * brightness .TOP,
      (BLOCK_COLORS q.bt).2.1 * brightness .TOP,
      (BLOCK_COLORS q.bt).2.2 * brightness .TOP, rfl⟩
  | BOTTOM =>
    exact ⟨((q.u : Int) + cx * CHUNK_SIZE, (CHUNK_HEIGHT : Int) - 1 - (d : Int),
        (q.v : Int) + cz * CHUNK_SIZE),
      ((q.u : Int) + q.w + cx * CHUNK_SIZE, (CHUNK_HEIGHT : Int) - 1 - (d : Int),
        (q.v : Int) + cz * CHUNK_SIZE),
      ((q.u : Int) + q.w + cx * CHUNK_SIZE, (CHUNK_HEIGHT : Int) - 1 - (d : Int),
        (q.v : Int) + q.h + cz * CHUNK_SIZE),
      ((q.u : Int) + cx * CHUNK_SIZE, (CHUNK_HEIGHT : Int) - 1 - (d : Int),
        (q.v : Int) + q.h + cz * CHUNK_SIZE),
      (BLOCK_COLORS q.bt).1 * brightness .BOTTOM,
      (BLOCK_COLORS q.bt).2.1 * brightness .BOTTOM,
      (BLOCK_COLORS q.bt).2.2 * brightness .BOTTOM, rfl⟩
  | LEFT =>
    exact ⟨((d : Int) + cx * CHUNK_SIZE, (q.v : Int), (q.u : Int) + cz * CHUNK_SIZE),
      ((d : Int) + cx * CHUNK_SIZE, (q.v : Int), (q.u : Int) + q.w + cz * CHUNK_SIZE),
      ((d : Int) + cx * CHUNK_SIZE, (q.v : Int) + q.h, (q.u : Int) + q.w + cz * CHUNK_SIZE),
      ((d : Int) + cx * CHUNK_SIZE, (q.v : Int) + q.h, (q.u : Int) + cz * CHUNK_SIZE),
      (BLOCK_COLORS q.bt).1 * brightness .LEFT,
      (BLOCK_COLORS q.bt).2.1 * brightness .LEFT,
      (BLOCK_COLORS q.bt).2.2 * brightness .LEFT, rfl⟩
  | RIGHT =>
    exact ⟨((CHUNK_SIZE : Int) - 1 - (d : Int) + 1 + cx * CHUNK_SIZE, (q.v : Int),
        (q.u : Int) + q.w + cz * CHUNK_SIZE),
      ((CHUNK_SIZE : Int) - 1 - (d : Int) + 1 + cx * CHUNK_SIZE, (q.v : Int),
        (q.u : Int) + cz * CHUNK_SIZE),
      ((CHUNK_SIZE : Int) - 1 - (d : Int) + 1 + cx * CHUNK_SIZE, (q.v : Int) + q.h,
        (q.u : Int) + cz * CHUNK_SIZE),
      ((CHUNK_SIZE : Int) - 1 - (d : Int) + 1 + cx * CHUNK_SIZE, (q.v : Int) + q.h,
        (q.u : Int) + q.w + cz * CHUNK_SIZE),
      (BLOCK_COLORS q.bt).1 * brightness .RIGHT,
      (BLOCK_COLORS q.bt).2.1 * brightness .RIGHT,
      (BLOCK_COLORS q.bt).2.2 * brightness .RIGHT, rfl⟩

lemma addQuad_length (cx cz : Int) (f : Face) (d : Nat) (q : Quad) :
    (addQuad cx cz f d q).length = 36 := by
  cases f <;> rfl

lemma addQuadLighting_length (cx cz : Int) (f : Face) (d : Nat) (q : Quad) :
    (addQuadLighting cx cz f d q).length = 54 := by
  cases f <;> rfl

lemma length_flatMap_const {α β : Type} (l : List α) (g : α → List β) (n : Nat)
    (hg : ∀ a, (g a).length = n) : (l.flatMap g).length = n * l.length := by
  induction l with
  | nil => simp
  | cons a l ih =>
    simp only [List.flatMap_cons, List.length_append, List.length_cons, hg, ih]
    ring

lemma buildMeshVertices_length (c : Chunk) :
    (buildMeshVertices c).length = 36 * (buildMeshQuads c.blocks).length :=
  length_flatMap_const _ _ 36 fun p => addQuad_length c.x c.z p.1 p.2.1 p.2.2

lemma buildMeshVerticesLighting_length (c : Chunk) :
    (buildMeshVerticesLighting c).length = 54 * (buildMeshQuads c.blocks).length :=
  length_flatMap_const _ _ 54 fun p => addQuadLighting_length c.x c.z p.1 p.2.1 p.2.2

/-- C3: setting a block at a valid in-range coordinate and reading it back
returns the written type (byte-sized types, which covers every `BlockType`
enum value), and setting at any out-of-range coordinate is a silent no-op
that leaves every `getBlock` result unchanged. -/
theorem set_get_round_trip (c : Chunk) (x y z : Int) (t : Nat) :
    (inRange x y z → t < 256 → (c.setBlock x y z t).getBlock x y z = t) ∧
    (¬ inRange x y z →
      ∀ x' y' z', (c.setBlock x y z t).getBlock x' y' z' = c.getBlock x' y' z') := by
  constructor
  · intro h ht
    simp only [Chunk.setBlock, Chunk.getBlock, getBlockFn, if_pos h]
    exact Nat.mod_eq_of_lt ht
  · intro h x' y' z'
    simp only [Chunk.setBlock, if_neg h]

/-- Witness for C3 at a concrete chunk: an in-range write of type 5 at
`(1, 2, 3)` reads back 5, and a write at the out-of-range `x = -1` leaves
`getBlock` at `(2, 2, 2)` unchanged. -/
theorem set_get_round_trip_witness :
    ((⟨0, 0, fun _ => 0, [], 0, true⟩ : Chunk).setBlock 1 2 3 5).getBlock 1 2 3 = 5 ∧
    ((⟨0, 0, fun _ => 0, [], 0, true⟩ : Chunk).setBlock (-1) 0 0 5).getBlock 2 2 2 =
      (⟨0, 0, fun _ => 0, [], 0, true⟩ : Chunk).getBlock 2 2 2 :=
  ⟨(set_get_round_trip _ 1 2 3 5).1 (by decide) (by decide),
   (set_get_round_trip _ (-1) 0 0 5).2 (by decide) 2 2 2⟩

/-- C4: `getBlock` is total (the embedding is a total function): any
out-of-range coordinate yields `AIR`, an in-range coordinate yields the
stored code, and the linear index of an in-range coordinate always lies
inside the allocated `CHUNK_SIZE * CHUNK_HEIGHT * CHUNK_SIZE` store, so the
array read never goes out of bounds. -/
theorem get_total (B : Nat → Nat) (x y z : Int) :
    (¬ inRange x y z → getBlockFn B x y z = BlockType.AIR) ∧
    (inRange x y z → getBlockFn B x y z = B (blockIndex x y z)) ∧
    (inRange x y z → blockIndex x y z < CHUNK_SIZE * CHUNK_HEIGHT * CHUNK_SIZE) := by
  refine ⟨fun h => ?_, fun h => ?_, fun h => ?_⟩
  · simp only [getBlockFn, if_neg h]
  · simp only [getBlockFn, if_pos h]
  · obtain ⟨hx0, hx1, hy0, hy1, hz0, hz1⟩ := h
    simp only [blockIndex, CHUNK_SIZE, CHUNK_HEIGHT] at *
    omega

/-- Witness for C4: the out-of-range read at `x = 16` returns `AIR`, the
in-range read at `(1, 2, 3)` returns the stored code, and that cell's index
is inside the store. -/
theorem get_total_witness :
    getBlockFn (fun _ => 7) 16 0 0 = BlockType.AIR ∧
    getBlockFn (fun i => i) 1 2 3 = blockIndex 1 2 3 ∧
    blockIndex 1 2 3 < CHUNK_SIZE * CHUNK_HEIGHT * CHUNK_SIZE :=
  ⟨(get_total _ 16 0 0).1 (by decide),
   (get_total (fun i => i) 1 2 3).2.1 (by decide),
   (get_total (fun i => i) 1 2 3).2.2 (by decide)⟩

/-- C5: rebuilding the mesh twice in a row without mutating the grid is
idempotent — the second `buildMesh` reproduces the identical chunk state,
in particular an identical vertex buffer, because the build is a pure
deterministic function of the block store and the chunk coordinates, all of
which `buildMesh` leaves untouched. -/
theorem rebuild_idempotent (c : Chunk) :
    Chunk.buildMesh (Chunk.buildMesh c) = Chunk.buildMesh c ∧
    (Chunk.buildMesh (Chunk.buildMesh c)).vertices = (Chunk.buildMesh c).vertices :=
  ⟨rfl, rfl⟩

/-- C10: `buildMesh` leaves the block store and the chunk's `(x, z)`
coordinates unchanged; it only replaces `vertices` and `vertexCount` with the
freshly built buffer data and clears the dirty flag. -/
theorem buildMesh_frame (c : Chunk) :
    (Chunk.buildMesh c).blocks = c.blocks ∧
    (Chunk.buildMesh c).x = c.x ∧
    (Chunk.buildMesh c).z = c.z ∧
    (Chunk.buildMesh c).isDirty = false ∧
    (Chunk.buildMesh c).vertices = buildMeshVertices c ∧
    (Chunk.buildMesh c).vertexCount = (buildMeshVertices c).length / 6 :=
  ⟨rfl, rfl, rfl, rfl, rfl, rfl⟩

/-- C6: every emitted quad contributes exactly 6 vertices, arranged as the
two triangles `(v0, v1, v2)` and `(v0, v2, v3)` over its four corners, and
consequently the vertex count of any built mesh is `6 *` the number of
emitted quads — always a multiple of 6. -/
theorem quad_vertex_structure (c : Chunk) :
    (Chunk.buildMesh c).vertexCount = 6 * (buildMeshQuads c.blocks).length ∧
    6 ∣ (Chunk.buildMesh c).vertexCount ∧
    (Chunk.buildMesh c).vertices.length = 36 * (buildMeshQuads c.blocks).length ∧
    ∀ (cx cz : Int) (f : Face) (d : Nat) (q : Quad),
      ∃ (c0 c1 c2 c3 : Int × Int × Int) (r g b : ℚ),
        addQuad cx cz f d q = fanVertices c0 c1 c2 c3 r g b := by
  have hlen : (Chunk.buildMesh c).vertices.length = 36 * (buildMeshQuads c.blocks).length :=
    buildMeshVertices_length c
  have hcount : (Chunk.buildMesh c).vertexCount = 6 * (buildMeshQuads c.blocks).length := by
    show (buildMeshVertices c).length / 6 = _
    rw [buildMeshVertices_length c]
    omega
  refine ⟨hcount, ⟨_, hcount⟩, hlen, fun cx cz f d q => ?_⟩
  exact addQuad_fan cx cz f d q

/-- C9: the simpler variant's vertex stride is 6 floats (position 3 + color
3) and the lighting-capable variant's stride is 9 floats (position 3 +
normal 3 + color 3); in both, the exposed vertex count equals the buffer's
float length divided by the stride, so length = stride * count. -/
theorem vertex_stride (c : Chunk) :
    (Chunk.buildMesh c).vertices.length = 6 * (Chunk.buildMesh c).vertexCount ∧
    (Chunk.buildMeshLighting c).vertices.length =
      9 * (Chunk.buildMeshLighting c).vertexCount ∧
    (∀ (cx cz : Int) (f : Face) (d : Nat) (q : Quad),
      (addQuad cx cz f d q).length = 6 * 6) ∧
    ∀ (cx cz : Int) (f : Face) (d : Nat) (q : Quad),
      (addQuadLighting cx cz f d q).length = 6 * 9 := by
  refine ⟨?_, ?_, fun cx cz f d q => addQuad_length cx cz f d q,
    fun cx cz f d q => addQuadLighting_length cx cz f d q⟩
  · show (buildMeshVertices c).length = 6 * ((buildMeshVertices c).length / 6)
    rw [buildMeshVertices_length c]
    omega
  · show (buildMeshVerticesLighting c).length =
      9 * ((buildMeshVerticesLighting c).length / 9)
    rw [buildMeshVerticesLighting_length c]
    omega

/-- Membership of a mask cell in the rectangle of a quad: quad `q` covers
mask cell `(a, b)`. -/
def Quad.covers (q : Quad) (a b : Nat) : Prop :=
  q.u ≤ a ∧ a < q.u + q.w ∧ q.v ≤ b ∧ b < q.v + q.h

/-- Some quad of the list covers mask cell `(a, b)`. -/
def coveredBy (qs : List Quad) (a b : Nat) : Prop :=
  ∃ q ∈ qs, q.covers a b

/-- Two quads cover no mask cell in common. -/
def QDisjoint (q q' : Quad) : Prop :=
  ∀ a b, ¬ (q.covers a b ∧ q'.covers a b)

lemma coveredBy_nil (a b : Nat) : ¬ coveredBy [] a b := by
  rintro ⟨q, hq, -⟩
  exact absurd hq (List.not_mem_nil q)

lemma coveredBy_cons {q : Quad} {qs : List Quad} {a b : Nat} :
    coveredBy (q :: qs) a b ↔ q.covers a b ∨ coveredBy qs a b := by
  constructor
  · rintro ⟨q', hq', hc⟩
    rcases List.mem_cons.1 hq' with h | h
    · exact Or.inl (h ▸ hc)
    · exact Or.inr ⟨q', h, hc⟩
  · rintro (hc | ⟨q', hq', hc⟩)
    · exact ⟨q, List.mem_cons_self q qs, hc⟩
    · exact ⟨q', List.mem_cons_of_mem q hq', hc⟩

lemma coveredBy_append {qs qs' : List Quad} {a b : Nat} :
    coveredBy (qs ++ qs') a b ↔ coveredBy qs a b ∨ coveredBy qs' a b := by
  constructor
  · rintro ⟨q, hq, hc⟩
    rcases List.mem_append.1 hq with h | h
    · exact Or.inl ⟨q, h, hc⟩
    · exact Or.inr ⟨q, h, hc⟩
  · rintro (⟨q, hq, hc⟩ | ⟨q, hq, hc⟩)
    · exact ⟨q, List.mem_append.2 (Or.inl hq), hc⟩
    · exact ⟨q, List.mem_append.2 (Or.inr hq), hc⟩

lemma maskClear_of_mem {m : Mask} {u0 v0 w h a b : Nat}
    (hab : u0 ≤ a ∧ a < u0 + w ∧ v0 ≤ b ∧ b < v0 + h) :
    maskClear m u0 v0 w h a b = none := by
  simp only [maskClear, if_pos hab]

lemma maskClear_of_not_mem {m : Mask} {u0 v0 w h a b : Nat}
    (hab : ¬ (u0 ≤ a ∧ a < u0 + w ∧ v0 ≤ b ∧ b < v0 + h)) :
    maskClear m u0 v0 w h a b = m a b := by
  simp only [maskClear, if_neg hab]

lemma maskClear_some {m : Mask} {u0 v0 w h a b : Nat} {t : BlockType}
    (hs : maskClear m u0 v0 w h a b = some t) : m a b = some t := by
  by_cases hab : u0 ≤ a ∧ a < u0 + w ∧ v0 ≤ b ∧ b < v0 + h
  · rw [maskClear_of_mem hab] at hs
    exact absurd hs (by simp)
  · rwa [maskClear_of_not_mem hab] at hs

lemma computeWidth_le (m : Mask) (width u v bt : Nat) :
    ∀ fuel w0, u + w0 ≤ width → u + computeWidth m width u v bt fuel w0 ≤ width := by
  intro fuel
  induction fuel with
  | zero => intro w0 hw; exact hw
  | succ fuel ih =>
    intro w0 hw
    by_cases hc : u + w0 < width ∧ m (u + w0) v = some bt
    · rw [computeWidth, if_pos hc]
      exact ih (w0 + 1) (by have := hc.1; omega)
    · rw [computeWidth, if_neg hc]
      exact hw

lemma computeWidth_ge (m : Mask) (width u v bt : Nat) :
    ∀ fuel w0, w0 ≤ computeWidth m width u v bt fuel w0 := by
  intro fuel
  induction fuel with
  | zero => intro w0; exact Nat.le_refl w0
  | succ fuel ih =>
    intro w0
    by_cases hc : u + w0 < width ∧ m (u + w0) v = some bt
    · rw [computeWidth, if_pos hc]
      exact Nat.le_trans (Nat.le_succ w0) (ih (w0 + 1))
    · rw [computeWidth, if_neg hc]

lemma computeWidth_cells (m : Mask) (width u v bt : Nat) :
    ∀ fuel w0, (∀ k < w0, m (u + k) v = some bt) →
      ∀ k < computeWidth m width u v bt fuel w0, m (u + k) v = some bt := by
  intro fuel
  induction fuel with
  | zero => intro w0 hw; exact hw
  | succ fuel ih =>
    intro w0 hw
    by_cases hc : u + w0 < width ∧ m (u + w0) v = some bt
    · rw [computeWidth, if_pos hc]
      refine ih (w0 + 1) fun k hk => ?_
      rcases Nat.lt_or_ge k w0 with h | h
      · exact hw k h
      · have : k = w0 := by omega
        exact this ▸ hc.2
    · rw [computeWidth, if_neg hc]
      exact hw

lemma computeHeight_le (m : Mask) (height u v w bt : Nat) :
    ∀ fuel h0, v + h0 ≤ height → v + computeHeight m height u v w bt fuel h0 ≤ height := by
  intro fuel
  induction fuel with
  | zero => intro h0 hh; exact hh
  | succ fuel ih =>
    intro h0 hh
    by_cases hc : v + h0 < height ∧ ∀ k < w, m (u + k) (v + h0) = some bt
    · rw [computeHeight, if_pos hc]
      exact ih (h0 + 1) (by have := hc.1; omega)
    · rw [computeHeight, if_neg hc]
      exact hh

lemma computeHeight_ge (m : Mask) (height u v w bt : Nat) :
    ∀ fuel h0, h0 ≤ computeHeight m height u v w bt fuel h0 := by
  intro fuel
  induction fuel with
  | zero => intro h0; exact Nat.le_refl h0
  | succ fuel ih =>
    intro h0
    by_cases hc : v + h0 < height ∧ ∀ k < w, m (u + k) (v + h0) = some bt
    · rw [computeHeight, if_pos hc]
      exact Nat.le_trans (Nat.le_succ h0) (ih (h0 + 1))
    · rw [computeHeight, if_neg hc]

lemma computeHeight_cells (m : Mask) (height u v w bt : Nat) :
    ∀ fuel h0, (∀ j < h0, ∀ k < w, m (u + k) (v + j) = some bt) →
      ∀ j < computeHeight m height u v w bt fuel h0, ∀ k < w,
        m (u + k) (v + j) = some bt := by
  intro fuel
  induction fuel with
  | zero => intro h0 hh; exact hh
  | succ fuel ih =>
    intro h0 hh
    by_cases hc : v + h0 < height ∧ ∀ k < w, m (u + k) (v + h0) = some bt
    · rw [computeHeight, if_pos hc]
      refine ih (h0 + 1) fun j hj => ?_
      rcases Nat.lt_or_ge j h0 with h | h
      · exact hh j h
      · have : j = h0 := by omega
        exact this ▸ hc.2
    · rw [computeHeight, if_neg hc]
      exact hh

lemma mergeRow_zero (width height v u : Nat) (m : Mask) :
    mergeRow width height v 0 u m = ([], m) := rfl

lemma mergeRow_stop {width : Nat} (height v : Nat) {u : Nat} (fuel : Nat) (m : Mask)
    (hu : ¬ u < width) : mergeRow width height v fuel u m = ([], m) := by
  cases fuel with
  | zero => rfl
  | succ fuel => rw [mergeRow, if_neg hu]

lemma mergeRow_succ_none {width v u : Nat} {m : Mask} (height fuel : Nat)
    (hu : u < width) (hm : m u v = none) :
    mergeRow width height v (fuel + 1) u m = mergeRow width height v fuel (u + 1) m := by
  rw [mergeRow, if_pos hu, hm]

lemma mergeRow_succ_some {width v u : Nat} {m : Mask} {bt : BlockType}
    (height fuel : Nat) (hu : u < width) (hm : m u v = some bt) :
    mergeRow width height v (fuel + 1) u m =
      ((⟨u, v, computeWidth m width u v bt width 1,
          computeHeight m height u v (computeWidth m width u v bt width 1) bt height 1,
          bt⟩ : Quad) ::
        (mergeRow width height v fuel (u + computeWidth m width u v bt width 1)
          (maskClear m u v (computeWidth m width u v bt width 1)
            (computeHeight m height u v (computeWidth m width u v bt width 1) bt
              height 1))).1,
       (mergeRow width height v fuel (u + computeWidth m width u v bt width 1)
          (maskClear m u v (computeWidth m width u v bt width 1)
            (computeHeight m height u v (computeWidth m width u v bt width 1) bt
              height 1))).2) := by
  rw [mergeRow, if_pos hu, hm]

lemma mergeRow_succ_some_fst {width v u : Nat} {m : Mask} {bt : BlockType}
    (height fuel : Nat) (hu : u < width) (hm : m u v = some bt) :
    (mergeRow width height v (fuel + 1) u m).1 =
      (⟨u, v, computeWidth m width u v bt width 1,
          computeHeight m height u v (computeWidth m width u v bt width 1) bt height 1,
          bt⟩ : Quad) ::
        (mergeRow width height v fuel (u + computeWidth m width u v bt width 1)
          (maskClear m u v (computeWidth m width u v bt width 1)
            (computeHeight m height u v (computeWidth m width u v bt width 1) bt
              height 1))).1 := by
  rw [mergeRow_succ_some height fuel hu hm]

lemma mergeRow_succ_some_snd {width v u : Nat} {m : Mask} {bt : BlockType}
    (height fuel : Nat) (hu : u < width) (hm : m u v = some bt) :
    (mergeRow width height v (fuel + 1) u m).2 =
      (mergeRow width height v fuel (u + computeWidth m width u v bt width 1)
        (maskClear m u v (computeWidth m width u v bt width 1)
          (computeHeight m height u v (computeWidth m width u v bt width 1) bt
            height 1))).2 := by
  rw [mergeRow_succ_some height fuel hu hm]

lemma mergeRow_mask (width height v : Nat) :
    ∀ fuel u m a b,
      (coveredBy (mergeRow width height v fuel u m).1 a b →
        (mergeRow width height v fuel u m).2 a b = none) ∧
      (¬ coveredBy (mergeRow width height v fuel u m).1 a b →
        (mergeRow width height v fuel u m).2 a b = m a b) := by
  intro fuel
  induction fuel with
  | zero =>
    intro u m a b
    rw [mergeRow_zero]
    exact ⟨fun hc => absurd hc (coveredBy_nil a b), fun _ => rfl⟩
  | succ fuel ih =>
    intro u m a b
    by_cases hu : u < width
    · cases hm : m u v with
      | none =>
        rw [mergeRow_succ_none height fuel hu hm]
        exact ih (u + 1) m a b
      | some bt =>
        rw [mergeRow_succ_some_fst height fuel hu hm,
          mergeRow_succ_some_snd height fuel hu hm]
        have ihr := ih (u + computeWidth m width u v bt width 1)
          (maskClear m u v (computeWidth m width u v bt width 1)
            (computeHeight m height u v (computeWidth m width u v bt width 1) bt
              height 1)) a b
        constructor
        · intro hc
          rcases coveredBy_cons.1 hc with h0 | hr
          · by_cases hcr : coveredBy (mergeRow width height v fuel
                (u + computeWidth m width u v bt width 1)
                (maskClear m u v (computeWidth m width u v bt width 1)
                  (computeHeight m height u v (computeWidth m width u v bt width 1) bt
                    height 1))).1 a b
            · exact ihr.1 hcr
            · rw [ihr.2 hcr]
              exact maskClear_of_mem h0
          · exact ihr.1 hr
        · intro hc
          rw [ihr.2 fun hr => hc (coveredBy_cons.2 (Or.inr hr))]
          exact maskClear_of_not_mem fun hmem => hc (coveredBy_cons.2 (Or.inl hmem))
    · rw [mergeRow_stop height v (fuel + 1) m hu]
      exact ⟨fun hc => absurd hc (coveredBy_nil a b), fun _ => rfl⟩

lemma mergeRow_cells (width height v : Nat) :
    ∀ fuel u m, ∀ q ∈ (mergeRow width height v fuel u m).1, ∀ a b,
      q.covers a b → m a b = some q.bt := by
  intro fuel
  induction fuel with
  | zero =>
    intro u m q hq
    rw [mergeRow_zero] at hq
    exact absurd hq (List.not_mem_nil q)
  | succ fuel ih =>
    intro u m q hq a b hab
    by_cases hu : u < width
    · cases hm : m u v with
      | none =>
        rw [mergeRow_succ_none height fuel hu hm] at hq
        exact ih (u + 1) m q hq a b hab
      | some bt =>
        rw [mergeRow_succ_some_fst height fuel hu hm] at hq
        rcases List.mem_cons.1 hq with h | h
        · subst h
          have hrow : ∀ k < computeWidth m width u v bt width 1,
              m (u + k) v = some bt := by
            refine computeWidth_cells m width u v bt width 1 fun k hk => ?_
            have hk0 : k = 0 := by omega
            subst hk0
            simpa using hm
          have hrect : ∀ j < computeHeight m height u v
              (computeWidth m width u v bt width 1) bt height 1,
              ∀ k < computeWidth m width u v bt width 1,
                m (u + k) (v + j) = some bt := by
            refine computeHeight_cells m height u v _ bt height 1 fun j hj k hk => ?_
            have hj0 : j = 0 := by omega
            subst hj0
            simpa using hrow k hk
          obtain ⟨h1, h2, h3, h4⟩ :
              u ≤ a ∧ a < u + computeWidth m width u v bt width 1 ∧
                v ≤ b ∧ b < v + computeHeight m height u v
                  (computeWidth m width u v bt width 1) bt height 1 := hab
          have := hrect (b - v) (by omega) (a - u) (by omega)
          have hae : u + (a - u) = a := by omega
          have hbe : v + (b - v) = b := by omega
          rw [hae, hbe] at this
          exact this
        · exact maskClear_some (ih _ _ q h a b hab)
    · rw [mergeRow_stop height v (fuel + 1) m hu] at hq
      exact absurd hq (List.not_mem_nil q)

lemma mergeRow_bounds (width height v : Nat) (hv : v < height) :
    ∀ fuel u m, ∀ q ∈ (mergeRow width height v fuel u m).1,
      u ≤ q.u ∧ q.u + q.w ≤ width ∧ q.v = v ∧ q.v + q.h ≤ height ∧
        0 < q.w ∧ 0 < q.h := by
  intro fuel
  induction fuel with
  | zero =>
    intro u m q hq
    rw [mergeRow_zero] at hq
    exact absurd hq (List.not_mem_nil q)
  | succ fuel ih =>
    intro u m q hq
    by_cases hu : u < width
    · cases hm : m u v with
      | none =>
        rw [mergeRow_succ_none height fuel hu hm] at hq
        obtain ⟨h1, h2⟩ := ih (u + 1) m q hq
        exact ⟨by omega, h2⟩
      | some bt =>
        rw [mergeRow_succ_some_fst height fuel hu hm] at hq
        rcases List.mem_cons.1 hq with h | h
        · subst h
          refine ⟨Nat.le_refl u, ?_, rfl, ?_, ?_, ?_⟩
          · exact computeWidth_le m width u v bt width 1 (by omega)
          · exact computeHeight_le m height u v _ bt height 1 (by omega)
          · exact computeWidth_ge m width u v bt width 1
          · exact computeHeight_ge m height u v _ bt height 1
        · obtain ⟨h1, h2⟩ := ih _ _ q h
          have := computeWidth_ge m width u v bt width 1
          exact ⟨by omega, h2⟩
    · rw [mergeRow_stop height v (fuel + 1) m hu] at hq
      exact absurd hq (List.not_mem_nil q)

lemma mergeRow_row (width height v : Nat) :
    ∀ fuel u m, width ≤ u + fuel → ∀ a, u ≤ a → a < width →
      (mergeRow width height v fuel u m).2 a v = none := by
  intro fuel
  induction fuel with
  | zero =>
    intro u m hfuel a ha haw
    omega
  | succ fuel ih =>
    intro u m hfuel a ha haw
    by_cases hu : u < width
    · cases hm : m u v with
      | none =>
        rw [mergeRow_succ_none height fuel hu hm]
        rcases Nat.eq_or_lt_of_le ha with hae | halt
        · rw [← hae]
          by_cases hcov : coveredBy (mergeRow width height v fuel (u + 1) m).1 u v
          · exact (mergeRow_mask width height v fuel (u + 1) m u v).1 hcov
          · rw [(mergeRow_mask width height v fuel (u + 1) m u v).2 hcov]
            exact hm
        · exact ih (u + 1) m (by omega) a (by omega) haw
      | some bt =>
        rw [mergeRow_succ_some_snd height fuel hu hm]
        have hw1 := computeWidth_ge m width u v bt width 1
        by_cases hlt : a < u + computeWidth m width u v bt width 1
        · by_cases hcov : coveredBy (mergeRow width height v fuel
              (u + computeWidth m width u v bt width 1)
              (maskClear m u v (computeWidth m width u v bt width 1)
                (computeHeight m height u v (computeWidth m width u v bt width 1) bt
                  height 1))).1 a v
          · exact (mergeRow_mask width height v fuel _ _ a v).1 hcov
          · rw [(mergeRow_mask width height v fuel _ _ a v).2 hcov]
            have hh1 := computeHeight_ge m height u v
              (computeWidth m width u v bt width 1) bt height 1
            exact maskClear_of_mem ⟨ha, hlt, Nat.le_refl v, by omega⟩
        · exact ih _ _ (by omega) a (by omega) haw
    · omega

lemma mergeRow_pairwise (width height v : Nat) :
    ∀ fuel u m, List.Pairwise QDisjoint (mergeRow width height v fuel u m).1 := by
  intro fuel
  induction fuel with
  | zero =>
    intro u m
    rw [mergeRow_zero]
    exact List.Pairwise.nil
  | succ fuel ih =>
    intro u m
    by_cases hu : u < width
    · cases hm : m u v with
      | none =>
        rw [mergeRow_succ_none height fuel hu hm]
        exact ih (u + 1) m
      | some bt =>
        rw [mergeRow_succ_some_fst height fuel hu hm]
        refine List.pairwise_cons.2 ⟨fun q' hq' => ?_, ih _ _⟩
        rintro a b ⟨h0, h1⟩
        have hsome := mergeRow_cells width height v fuel _ _ q' hq' a b h1
        rw [maskClear_of_mem h0] at hsome
        exact absurd hsome (by simp)
    · rw [mergeRow_stop height v (fuel + 1) m hu]
      exact List.Pairwise.nil

lemma mergeRow_some_inv {width height v fuel u : Nat} {m : Mask} {a b : Nat}
    {t : BlockType} (hs : (mergeRow width height v fuel u m).2 a b = some t) :
    m a b = some t := by
  by_cases hcov : coveredBy (mergeRow width height v fuel u m).1 a b
  · rw [(mergeRow_mask width height v fuel u m a b).1 hcov] at hs
    exact absurd hs (by simp)
  · rwa [(mergeRow_mask width height v fuel u m a b).2 hcov] at hs

lemma mergeRow_none_persist {width height v fuel u : Nat} {m : Mask} {a b : Nat}
    (hn : m a b = none) : (mergeRow width height v fuel u m).2 a b = none := by
  by_cases hcov : coveredBy (mergeRow width height v fuel u m).1 a b
  · exact (mergeRow_mask width height v fuel u m a b).1 hcov
  · rw [(mergeRow_mask width height v fuel u m a b).2 hcov]
    exact hn

lemma mergeRows_succ_fst (width height fuel v : Nat) (m : Mask) :
    (mergeRows width height (fuel + 1) v m).1 =
      (mergeRow width height v width 0 m).1 ++
        (mergeRows width height fuel (v + 1) (mergeRow width height v width 0 m).2).1 :=
  rfl

lemma mergeRows_succ_snd (width height fuel v : Nat) (m : Mask) :
    (mergeRows width height (fuel + 1) v m).2 =
      (mergeRows width height fuel (v + 1) (mergeRow width height v width 0 m).2).2 :=
  rfl

lemma mergeRows_mask (width height : Nat) :
    ∀ fuel v m a b,
      (coveredBy (mergeRows width height fuel v m).1 a b →
        (mergeRows width height fuel v m).2 a b = none) ∧
      (¬ coveredBy (mergeRows width height fuel v m).1 a b →
        (mergeRows width height fuel v m).2 a b = m a b) := by
  intro fuel
  induction fuel with
  | zero =>
    intro v m a b
    exact ⟨fun hc => absurd hc (coveredBy_nil a b), fun _ => rfl⟩
  | succ fuel ih =>
    intro v m a b
    rw [mergeRows_succ_fst, mergeRows_succ_snd]
    have h1 := mergeRow_mask width height v width 0 m a b
    have h2 := ih (v + 1) (mergeRow width height v width 0 m).2 a b
    constructor
    · intro hc
      rcases coveredBy_append.1 hc with hr | hr
      · by_cases hc2 : coveredBy (mergeRows width height fuel (v + 1)
            (mergeRow width height v width 0 m).2).1 a b
        · exact h2.1 hc2
        · rw [h2.2 hc2]
          exact h1.1 hr
      · exact h2.1 hr
    · intro hc
      rw [h2.2 fun hr => hc (coveredBy_append.2 (Or.inr hr))]
      exact h1.2 fun hr => hc (coveredBy_append.2 (Or.inl hr))

lemma mergeRows_none_persist {width height fuel v : Nat} {m : Mask} {a b : Nat}
    (hn : m a b = none) : (mergeRows width height fuel v m).2 a b = none := by
  by_cases hcov : coveredBy (mergeRows width height fuel v m).1 a b
  · exact (mergeRows_mask width height fuel v m a b).1 hcov
  · rw [(mergeRows_mask width height fuel v m a b).2 hcov]
    exact hn

lemma mergeRows_cells (width height : Nat) :
    ∀ fuel v m, ∀ q ∈ (mergeRows width height fuel v m).1, ∀ a b,
      q.covers a b → m a b = some q.bt := by
  intro fuel
  induction fuel with
  | zero =>
    intro v m q hq
    exact absurd hq (List.not_mem_nil q)
  | succ fuel ih =>
    intro v m q hq a b hab
    rw [mergeRows_succ_fst] at hq
    rcases List.mem_append.1 hq with h | h
    · exact mergeRow_cells width height v width 0 m q h a b hab
    · exact mergeRow_some_inv (ih (v + 1) _ q h a b hab)

lemma mergeRows_bounds (width height : Nat) :
    ∀ fuel v m, v + fuel ≤ height → ∀ q ∈ (mergeRows width height fuel v m).1,
      q.u + q.w ≤ width ∧ q.v + q.h ≤ height ∧ 0 < q.w ∧ 0 < q.h ∧ v ≤ q.v := by
  intro fuel
  induction fuel with
  | zero =>
    intro v m _ q hq
    exact absurd hq (List.not_mem_nil q)
  | succ fuel ih =>
    intro v m hvf q hq
    rw [mergeRows_succ_fst] at hq
    rcases List.mem_append.1 hq with h | h
    · obtain ⟨_, h2, h3, h4, h5, h6⟩ :=
        mergeRow_bounds width height v (by omega) width 0 m q h
      exact ⟨h2, h4, h5, h6, by omega⟩
    · obtain ⟨h1, h2, h3, h4, h5⟩ := ih (v + 1) _ (by omega) q h
      exact ⟨h1, h2, h3, h4, by omega⟩

lemma mergeRows_cleared (width height : Nat) :
    ∀ fuel v m, ∀ a b, a < width → v ≤ b → b < v + fuel →
      (mergeRows width height fuel v m).2 a b = none := by
  intro fuel
  induction fuel with
  | zero =>
    intro v m a b _ hvb hbv
    omega
  | succ fuel ih =>
    intro v m a b ha hvb hbv
    rw [mergeRows_succ_snd]
    by_cases hbe : b = v
    · subst hbe
      exact mergeRows_none_persist
        (mergeRow_row width height b width 0 m (by omega) a (Nat.zero_le a) ha)
    · exact ih (v + 1) _ a b ha (by omega) (by omega)

lemma mergeRows_pairwise (width height : Nat) :
    ∀ fuel v m, List.Pairwise QDisjoint (mergeRows width height fuel v m).1 := by
  intro fuel
  induction fuel with
  | zero =>
    intro v m
    exact List.Pairwise.nil
  | succ fuel ih =>
    intro v m
    rw [mergeRows_succ_fst]
    refine List.pairwise_append.2 ⟨mergeRow_pairwise width height v width 0 m,
      ih (v + 1) _, fun q hq q' hq' => ?_⟩
    rintro a b ⟨hc, hc'⟩
    have hsome := mergeRows_cells width height fuel (v + 1) _ q' hq' a b hc'
    have hnone := (mergeRow_mask width height v width 0 m a b).1 ⟨q, hq, hc⟩
    rw [hnone] at hsome
    exact absurd hsome (by simp)

lemma mergeSlice_cells {width height : Nat} {m : Mask} :
    ∀ q ∈ mergeSlice width height m, ∀ a b, q.covers a b → m a b = some q.bt :=
  mergeRows_cells width height height 0 m

lemma mergeSlice_bounds {width height : Nat} {m : Mask} :
    ∀ q ∈ mergeSlice width height m,
      q.u + q.w ≤ width ∧ q.v + q.h ≤ height ∧ 0 < q.w ∧ 0 < q.h :=
  fun q hq =>
    let h := mergeRows_bounds width height height 0 m (by omega) q hq
    ⟨h.1, h.2.1, h.2.2.1, h.2.2.2.1⟩

lemma mergeSlice_pairwise (width height : Nat) (m : Mask) :
    List.Pairwise QDisjoint (mergeSlice width height m) :=
  mergeRows_pairwise width height height 0 m

lemma mergeSlice_covered_iff {width height : Nat} {m : Mask}
    (hsupp : ∀ a b, (m a b).isSome → a < width ∧ b < height) (a b : Nat) :
    coveredBy (mergeSlice width height m) a b ↔ (m a b).isSome := by
  constructor
  · rintro ⟨q, hq, hc⟩
    rw [mergeRows_cells width height height 0 m q hq a b hc]
    rfl
  · intro hs
    obtain ⟨ha, hb⟩ := hsupp a b hs
    by_contra hnc
    have h2 := (mergeRows_mask width height height 0 m a b).2 hnc
    have h3 := mergeRows_cleared width height height 0 m a b ha (Nat.zero_le b)
      (by omega)
    rw [h2] at h3
    rw [h3] at hs
    exact absurd hs (by simp)

/-- The set of mask cells covered by one quad's rectangle. -/
def Quad.cells (q : Quad) : Finset (Nat × Nat) :=
  Finset.Ico q.u (q.u + q.w) ×ˢ Finset.Ico q.v (q.v + q.h)

lemma Quad.mem_cells {q : Quad} {p : Nat × Nat} :
    p ∈ q.cells ↔ q.covers p.1 p.2 := by
  simp [Quad.cells, Quad.covers, Finset.mem_product, Finset.mem_Ico, and_assoc]

lemma Quad.card_cells (q : Quad) : q.cells.card = q.w * q.h := by
  simp only [Quad.cells, Finset.card_product, Nat.card_Ico]
  rw [Nat.add_sub_cancel_left, Nat.add_sub_cancel_left]

/-- The union of the cell rectangles of a list of quads. -/
def quadsCells (qs : List Quad) : Finset (Nat × Nat) :=
  qs.foldr (fun q acc => q.cells ∪ acc) ∅

lemma mem_quadsCells {qs : List Quad} {p : Nat × Nat} :
    p ∈ quadsCells qs ↔ coveredBy qs p.1 p.2 := by
  induction qs with
  | nil =>
    simp only [quadsCells, List.foldr_nil, Finset.not_mem_empty, false_iff]
    exact coveredBy_nil p.1 p.2
  | cons q qs ih =>
    simp only [quadsCells, List.foldr_cons, Finset.mem_union, coveredBy_cons]
    rw [← Quad.mem_cells]
    exact or_congr Iff.rfl ih

lemma card_quadsCells {qs : List Quad} (hpw : List.Pairwise QDisjoint qs) :
    (quadsCells qs).card = (qs.map fun q => q.w * q.h).sum := by
  induction qs with
  | nil => rfl
  | cons q qs ih =>
    obtain ⟨hhd, htl⟩ := List.pairwise_cons.1 hpw
    have hdisj : Disjoint q.cells (quadsCells qs) := by
      rw [Finset.disjoint_left]
      intro p hp hp'
      obtain ⟨q', hq', hc'⟩ := mem_quadsCells.1 hp'
      exact hhd q' hq' p.1 p.2 ⟨Quad.mem_cells.1 hp, hc'⟩
    show (q.cells ∪ quadsCells qs).card = _
    rw [Finset.card_union_of_disjoint hdisj, Quad.card_cells, ih htl]
    simp

/-- The set of non-empty ("exposed") cells of a mask inside the
`width × height` slice grid — the state of the mask array as built, before
the greedy merge consumes it. -/
def maskCells (m : Mask) (width height : Nat) : Finset (Nat × Nat) :=
  (Finset.range width ×ˢ Finset.range height).filter fun p => (m p.1 p.2).isSome

lemma mergeSlice_area {width height : Nat} {m : Mask}
    (hsupp : ∀ a b, (m a b).isSome → a < width ∧ b < height) :
    ((mergeSlice width height m).map fun q => q.w * q.h).sum =
      (maskCells m width height).card := by
  rw [← card_quadsCells (mergeSlice_pairwise width height m)]
  congr 1
  refine Finset.ext fun p => ?_
  rw [mem_quadsCells, mergeSlice_covered_iff hsupp]
  simp only [maskCells, Finset.mem_filter, Finset.mem_product, Finset.mem_range]
  constructor
  · intro hs
    obtain ⟨ha, hb⟩ := hsupp p.1 p.2 hs
    exact ⟨⟨ha, hb⟩, hs⟩
  · exact fun h => h.2

lemma getBlockFn_of_not_inRange {B : Nat → Nat} {x y z : Int}
    (h : ¬ inRange x y z) : getBlockFn B x y z = BlockType.AIR := by
  simp only [getBlockFn, if_neg h]

lemma inRange_of_getBlockFn_ne_air {B : Nat → Nat} {x y z : Int}
    (h : getBlockFn B x y z ≠ BlockType.AIR) : inRange x y z := by
  by_contra hn
  exact h (getBlockFn_of_not_inRange hn)

lemma shouldRenderFace_iff {B : Nat → Nat} {x y z : Int} {f : Face} :
    shouldRenderFace B x y z f = true ↔
      getBlockFn B x y z ≠ BlockType.AIR ∧
        getBlockFn B (faceNeighbor x y z f).1 (faceNeighbor x y z f).2.1
          (faceNeighbor x y z f).2.2 = BlockType.AIR := by
  by_cases h : getBlockFn B x y z = BlockType.AIR
  · simp [shouldRenderFace, h]
  · simp [shouldRenderFace, h]

lemma buildMask_isSome_iff {B : Nat → Nat} {f : Face} {d u v : Nat} :
    (buildMask B f d u v).isSome = true ↔
      shouldRenderFace B (getCoords u v d f).1 (getCoords u v d f).2.1
        (getCoords u v d f).2.2 f = true := by
  by_cases h : shouldRenderFace B (getCoords u v d f).1 (getCoords u v d f).2.1
      (getCoords u v d f).2.2 f = true
  · simp [buildMask, h]
  · simp only [Bool.not_eq_true] at h
    simp [buildMask, h]

lemma buildMask_support (B : Nat → Nat) (f : Face) (d : Nat) :
    ∀ u v, (buildMask B f d u v).isSome →
      u < (getFaceDimensions f).1 ∧ v < (getFaceDimensions f).2 := by
  intro u v hs
  have hrender := buildMask_isSome_iff.1 hs
  have hblock := (shouldRenderFace_iff.1 hrender).1
  have hin := inRange_of_getBlockFn_ne_air hblock
  obtain ⟨h1, h2, h3, h4, h5, h6⟩ := hin
  cases f <;>
    · simp only [getCoords, getFaceDimensions, CHUNK_SIZE, CHUNK_HEIGHT] at h1 h2 h3 h4 h5 h6 ⊢
      omega

/-- C2: for every grid configuration, face direction and depth slice, the
total emitted quad area (sum of `w * h`) equals the number of exposed cells
in that slice's mask as built before merging — the greedy merge neither
gains nor loses coverage. -/
theorem area_conservation (B : Nat → Nat) (f : Face) (d : Nat) :
    ((sliceQuads B f d).map fun q => q.w * q.h).sum =
      (maskCells (buildMask B f d) (getFaceDimensions f).1
        (getFaceDimensions f).2).card :=
  mergeSlice_area (buildMask_support B f d)

/-- Cell `(x, y, z)`'s face in direction `f` contributes area to some quad
emitted by `buildMesh`: some emitted quad of that face direction covers a
mask cell `(u, v)` of its slice that maps to `(x, y, z)` under the face's
coordinate mapping. -/
def faceCovered (B : Nat → Nat) (x y z : Nat) (f : Face) : Prop :=
  ∃ p ∈ buildMeshQuads B, p.1 = f ∧
    ∃ u v, getCoords u v p.2.1 f = ((x : Int), (y : Int), (z : Int)) ∧
      p.2.2.covers u v

lemma mem_buildMeshQuads {B : Nat → Nat} {f : Face} {d : Nat} {q : Quad}
    (hd : d < CHUNK_HEIGHT) (hq : q ∈ sliceQuads B f d) :
    (f, d, q) ∈ buildMeshQuads B := by
  have hf : f ∈ faceList := by cases f <;> simp [faceList]
  refine List.mem_flatMap.2 ⟨f, hf, ?_⟩
  refine List.mem_flatMap.2 ⟨d, ?_, ?_⟩
  · show d ∈ List.range CHUNK_HEIGHT
    exact List.mem_range.2 hd
  · exact List.mem_map.2 ⟨q, hq, rfl⟩

lemma faceCovered_intro (B : Nat → Nat) {x y z : Nat} (f : Face) (d u v : Nat)
    (hd : d < CHUNK_HEIGHT)
    (hco : getCoords u v d f = ((x : Int), (y : Int), (z : Int)))
    (hrender : shouldRenderFace B (x : Int) (y : Int) (z : Int) f = true) :
    faceCovered B x y z f := by
  have hmask : (buildMask B f d u v).isSome := by
    rw [buildMask_isSome_iff, hco]
    exact hrender
  obtain ⟨q, hq, hcq⟩ :=
    (mergeSlice_covered_iff (buildMask_support B f d) u v).2 hmask
  exact ⟨(f, d, q), mem_buildMeshQuads hd hq, rfl, u, v, hco, hcq⟩

/-- C1: exposure correctness — for every grid configuration, face direction
and in-range cell, the cell's face in that direction contributes area to
some quad emitted by `buildMesh` if and only if the cell is non-empty and
its neighbour one step along the face normal is empty (`shouldRenderFace`,
with out-of-range reads counting as empty). -/
theorem exposure_correctness (B : Nat → Nat) (x y z : Nat) (f : Face)
    (hx : x < CHUNK_SIZE) (hy : y < CHUNK_HEIGHT) (hz : z < CHUNK_SIZE) :
    faceCovered B x y z f ↔
      shouldRenderFace B (x : Int) (y : Int) (z : Int) f = true := by
  constructor
  · rintro ⟨p, hp, hpf, u, v, hco, hcov⟩
    obtain ⟨f', hf', hp2⟩ := List.mem_flatMap.1 hp
    obtain ⟨d, hd, hp3⟩ := List.mem_flatMap.1 hp2
    obtain ⟨q, hq, hpe⟩ := List.mem_map.1 hp3
    subst hpe
    cases hpf
    have hsome : buildMask B f' d u v = some q.bt :=
      mergeSlice_cells q hq u v hcov
    have hs : (buildMask B f' d u v).isSome := by
      rw [hsome]
      rfl
    have hrender := buildMask_isSome_iff.1 hs
    rw [hco] at hrender
    exact hrender
  · intro hrender
    cases f with
    | FRONT =>
      exact faceCovered_intro B Face.FRONT z x y
        (by simp only [CHUNK_SIZE, CHUNK_HEIGHT] at *; omega) rfl hrender
    | BACK =>
      refine faceCovered_intro B Face.BACK (CHUNK_SIZE - 1 - z) x y
        (by simp only [CHUNK_SIZE, CHUNK_HEIGHT] at *; omega) ?_ hrender
      simp only [getCoords, Prod.mk.injEq, CHUNK_SIZE, true_and, and_true] at *
      omega
    | TOP =>
      exact faceCovered_intro B Face.TOP y x z hy rfl hrender
    | BOTTOM =>
      refine faceCovered_intro B Face.BOTTOM (CHUNK_HEIGHT - 1 - y) x z
        (by simp only [CHUNK_HEIGHT] at *; omega) ?_ hrender
      simp only [getCoords, Prod.mk.injEq, CHUNK_HEIGHT, true_and, and_true] at *
      omega
    | LEFT =>
      exact faceCovered_intro B Face.LEFT x z y
        (by simp only [CHUNK_SIZE, CHUNK_HEIGHT] at *; omega) rfl hrender
    | RIGHT =>
      refine faceCovered_intro B Face.RIGHT (CHUNK_SIZE - 1 - x) z y
        (by simp only [CHUNK_SIZE, CHUNK_HEIGHT] at *; omega) ?_ hrender
      simp only [getCoords, Prod.mk.injEq, CHUNK_SIZE, true_and, and_true] at *
      omega

/-- Witness for C1 at a concrete input: the exposure equivalence
instantiated at the all-air grid, cell `(0, 0, 0)`, front face. -/
theorem exposure_correctness_witness :
    faceCovered (fun _ => 0) 0 0 0 Face.FRONT ↔
      shouldRenderFace (fun _ => 0) ((0 : Nat) : Int) ((0 : Nat) : Int)
        ((0 : Nat) : Int) Face.FRONT = true :=
  exposure_correctness (fun _ => 0) 0 0 0 Face.FRONT (by decide) (by decide)
    (by decide)

lemma shouldRenderFace_eq_false_of_air {B : Nat → Nat} {x y z : Int} (f : Face)
    (h : getBlockFn B x y z = BlockType.AIR) :
    shouldRenderFace B x y z f = false := by
  unfold shouldRenderFace
  rw [if_pos h]

lemma buildMask_eq_none {B : Nat → Nat} {f : Face} {d u v : Nat}
    (h : shouldRenderFace B (getCoords u v d f).1 (getCoords u v d f).2.1
      (getCoords u v d f).2.2 f = false) : buildMask B f d u v = none := by
  simp [buildMask, h]

lemma mergeSlice_nil {width height : Nat} {m : Mask}
    (h : ∀ a b, m a b = none) : mergeSlice width height m = [] := by
  rw [List.eq_nil_iff_forall_not_mem]
  intro q hq
  obtain ⟨hb1, hb2, hw, hh⟩ := mergeSlice_bounds q hq
  have hcell := mergeSlice_cells q hq q.u q.v
    ⟨Nat.le_refl q.u, by omega, Nat.le_refl q.v, by omega⟩
  rw [h] at hcell
  exact absurd hcell (by simp)

/-- Follows the spec's words (C8, spec §4.2 step 2): the extent of the
sweep's depth axis per face direction — Z (`CHUNK_SIZE`) for the ±Z faces,
Y (`CHUNK_HEIGHT`) for the ±Y faces, X (`CHUNK_SIZE`) for the ±X faces.
Stated only for comparison with the source's actual slice-loop bound
`meshDepthRange`. -/
def depthAxisExtent : Face → Nat
  | .FRONT => CHUNK_SIZE
  | .BACK => CHUNK_SIZE
  | .TOP => CHUNK_HEIGHT
  | .BOTTOM => CHUNK_HEIGHT
  | .LEFT => CHUNK_SIZE
  | .RIGHT => CHUNK_SIZE

/-- C8 counterexample: at the concrete face direction FRONT (a ±Z face) the
source's slice loop sweeps `d` over `0..CHUNK_HEIGHT-1` (64 values), not
over the depth-axis extent `CHUNK_SIZE` (16 values) stated by the claim. -/
theorem depth_sweep_counterexample :
    meshDepthRange Face.FRONT ≠ List.range (depthAxisExtent Face.FRONT) := by
  decide

/-- C8 (amended): the slice loop of `buildMesh` sweeps `d` from 0 to
`CHUNK_HEIGHT - 1` for every face direction; for the ±X and ±Z directions
the iterations at `d ≥ CHUNK_SIZE` address out-of-range coordinates only,
build an all-empty mask and emit no quads, so the overscan is harmless. -/
theorem depth_sweep_amended (B : Nat → Nat) (f : Face) (d : Nat)
    (hf : f = Face.FRONT ∨ f = Face.BACK ∨ f = Face.LEFT ∨ f = Face.RIGHT)
    (hd : CHUNK_SIZE ≤ d) :
    meshDepthRange f = List.range CHUNK_HEIGHT ∧ sliceQuads B f d = [] := by
  refine ⟨rfl, ?_⟩
  apply mergeSlice_nil
  intro a b
  apply buildMask_eq_none
  apply shouldRenderFace_eq_false_of_air
  apply getBlockFn_of_not_inRange
  rcases hf with rfl | rfl | rfl | rfl <;>
  · simp only [getCoords, inRange, CHUNK_SIZE, CHUNK_HEIGHT, not_and, not_lt,
      not_le] at *
    omega

/-- Witness for C8 (amended) at face FRONT and the first overscanned depth
value `d = CHUNK_SIZE = 16`. -/
theorem depth_sweep_amended_witness :
    meshDepthRange Face.FRONT = List.range CHUNK_HEIGHT ∧
      sliceQuads (fun _ => 0) Face.FRONT 16 = [] :=
  depth_sweep_amended (fun _ => 0) Face.FRONT 16 (Or.inl rfl) (by decide)

/-- A uniform slab grid configuration: the block store whose every cell of
layer `y = y0` holds block type `t` and whose other cells are empty — a full
`CHUNK_SIZE × CHUNK_SIZE` single-layer slab (the linear index's
`CHUNK_SIZE * CHUNK_SIZE` quotient is the cell's Y coordinate). -/
def slabB (y0 t : Nat) : Nat → Nat := fun i =>
  if i / (CHUNK_SIZE * CHUNK_SIZE) = y0 then t else 0

lemma getBlockFn_slab (y0 t : Nat) (x y z : Int) :
    getBlockFn (slabB y0 t) x y z =
      if inRange x y z ∧ y = (y0 : Int) then t else 0 := by
  unfold getBlockFn
  by_cases hin : inRange x y z
  · rw [if_pos hin]
    obtain ⟨hx0, hx1, hy0, hy1, hz0, hz1⟩ := hin
    simp only [CHUNK_SIZE, CHUNK_HEIGHT] at hx1 hy1 hz1
    have hdiv : blockIndex x y z / (CHUNK_SIZE * CHUNK_SIZE) = y.toNat := by
      simp only [blockIndex, CHUNK_SIZE]
      rw [Nat.add_mul_div_right _ _ (by norm_num : 0 < 16 * 16),
        Nat.div_eq_of_lt (by omega)]
      omega
    unfold slabB
    rw [hdiv]
    by_cases hy : y = (y0 : Int)
    · rw [if_pos (by omega), if_pos ⟨⟨hx0, by simp [CHUNK_SIZE]; omega, hy0,
        by simp [CHUNK_HEIGHT]; omega, hz0, by simp [CHUNK_SIZE]; omega⟩, hy⟩]
    · rw [if_neg (by omega), if_neg fun hc => hy hc.2]
  · rw [if_neg hin, if_neg fun hc => hin hc.1]
    rfl

/-- The cell's exposure condition for the slab configuration: the cell is on
the slab layer, in range, and its face neighbour is not a slab cell. -/
lemma shouldRenderFace_slab_iff {y0 t : Nat} (ht : 0 < t) (f : Face)
    (x y z : Int) :
    shouldRenderFace (slabB y0 t) x y z f = true ↔
      inRange x y z ∧ y = (y0 : Int) ∧
        ¬ (inRange (faceNeighbor x y z f).1 (faceNeighbor x y z f).2.1
            (faceNeighbor x y z f).2.2 ∧
          (faceNeighbor x y z f).2.1 = (y0 : Int)) := by
  rw [shouldRenderFace_iff, getBlockFn_slab, getBlockFn_slab]
  constructor
  · rintro ⟨hb, hn⟩
    by_cases hc : inRange x y z ∧ y = (y0 : Int)
    · refine ⟨hc.1, hc.2, fun hc2 => ?_⟩
      rw [if_pos hc2] at hn
      have h0 : t = 0 := hn
      omega
    · rw [if_neg hc] at hb
      exact absurd rfl hb
  · rintro ⟨h1, h2, h3⟩
    constructor
    · rw [if_pos ⟨h1, h2⟩]
      intro he
      have h0 : t = 0 := he
      omega
    · rw [if_neg h3]
      rfl

lemma buildMask_slab {y0 t : Nat} (ht : 0 < t) (f : Face) (d u v : Nat) :
    buildMask (slabB y0 t) f d u v =
      if inRange (getCoords u v d f).1 (getCoords u v d f).2.1
          (getCoords u v d f).2.2 ∧
        (getCoords u v d f).2.1 = (y0 : Int) ∧
        ¬ (inRange (faceNeighbor (getCoords u v d f).1 (getCoords u v d f).2.1
              (getCoords u v d f).2.2 f).1
            (faceNeighbor (getCoords u v d f).1 (getCoords u v d f).2.1
              (getCoords u v d f).2.2 f).2.1
            (faceNeighbor (getCoords u v d f).1 (getCoords u v d f).2.1
              (getCoords u v d f).2.2 f).2.2 ∧
          (faceNeighbor (getCoords u v d f).1 (getCoords u v d f).2.1
            (getCoords u v d f).2.2 f).2.1 = (y0 : Int))
      then some t else none := by
  by_cases hr : shouldRenderFace (slabB y0 t) (getCoords u v d f).1
      (getCoords u v d f).2.1 (getCoords u v d f).2.2 f = true
  · have hc := (shouldRenderFace_slab_iff ht f _ _ _).1 hr
    simp only [buildMask, if_pos hr, if_pos hc]
    rw [getBlockFn_slab, if_pos ⟨hc.1, hc.2.1⟩]
  · have hc := fun hcc => hr ((shouldRenderFace_slab_iff ht f _ _ _).2 hcc)
    have hrf : shouldRenderFace (slabB y0 t) (getCoords u v d f).1
        (getCoords u v d f).2.1 (getCoords u v d f).2.2 f = false := by
      simp only [Bool.not_eq_true] at hr
      exact hr
    simp only [buildMask, hrf, Bool.false_eq_true, if_false, if_neg hc]

/-- The mask whose cells `[0, W) × [0, H)` all hold `t` — the slice mask of
a fully exposed uniform slice. -/
def fullMask (W H : Nat) (t : BlockType) : Mask := fun u v =>
  if u < W ∧ v < H then some t else none

/-- The mask whose single row `v0` holds `t` on `[0, W)` — the slice mask of
one exposed rim row. -/
def rowMask (W v0 : Nat) (t : BlockType) : Mask := fun u v =>
  if u < W ∧ v = v0 then some t else none

lemma computeWidth_all (m : Mask) (W u v : Nat) (bt : BlockType)
    (hcells : ∀ j, u + j < W → m (u + j) v = some bt) :
    ∀ fuel w0, u + w0 ≤ W → W ≤ u + w0 + fuel →
      u + computeWidth m W u v bt fuel w0 = W := by
  intro fuel
  induction fuel with
  | zero =>
    intro w0 h1 h2
    show u + w0 = W
    omega
  | succ fuel ih =>
    intro w0 h1 h2
    by_cases hlt : u + w0 < W
    · rw [computeWidth, if_pos ⟨hlt, hcells w0 hlt⟩]
      exact ih (w0 + 1) (by omega) (by omega)
    · rw [computeWidth, if_neg fun hc => hlt hc.1]
      omega

lemma computeHeight_all (m : Mask) (H u v w : Nat) (bt : BlockType)
    (hcells : ∀ j, v + j < H → ∀ k < w, m (u + k) (v + j) = some bt) :
    ∀ fuel h0, v + h0 ≤ H → H ≤ v + h0 + fuel →
      v + computeHeight m H u v w bt fuel h0 = H := by
  intro fuel
  induction fuel with
  | zero =>
    intro h0 h1 h2
    show v + h0 = H
    omega
  | succ fuel ih =>
    intro h0 h1 h2
    by_cases hlt : v + h0 < H
    · rw [computeHeight, if_pos ⟨hlt, hcells h0 hlt⟩]
      exact ih (h0 + 1) (by omega) (by omega)
    · rw [computeHeight, if_neg fun hc => hlt hc.1]
      omega

lemma computeHeight_one (m : Mask) (H u v w : Nat) (bt : BlockType) (fuel : Nat)
    (h : ¬ (v + 1 < H ∧ ∀ k < w, m (u + k) (v + 1) = some bt)) :
    computeHeight m H u v w bt fuel 1 = 1 := by
  cases fuel with
  | zero => rfl
  | succ fuel => rw [computeHeight, if_neg h]

lemma mergeRow_noneRow (width height v : Nat) :
    ∀ fuel u m, (∀ a, m a v = none) → mergeRow width height v fuel u m = ([], m) := by
  intro fuel
  induction fuel with
  | zero => intro u m _; rfl
  | succ fuel ih =>
    intro u m h
    by_cases hu : u < width
    · rw [mergeRow_succ_none height fuel hu (h u)]
      exact ih (u + 1) m h
    · exact mergeRow_stop height v (fuel + 1) m hu

/-- A `mergeRow` pass over a row that holds `bt` on all of `[0, width)`
emits the single full-width quad and clears its rectangle. -/
lemma mergeRow_full_row (width height v : Nat) (m : Mask) (t : BlockType)
    (hW : 0 < width) (hrow : ∀ j, j < width → m j v = some t) :
    mergeRow width height v width 0 m =
      ([⟨0, v, width, computeHeight m height 0 v width t height 1, t⟩],
        maskClear m 0 v width (computeHeight m height 0 v width t height 1)) := by
  obtain ⟨wf, rfl⟩ : ∃ wf, width = wf + 1 := ⟨width - 1, by omega⟩
  have hm0 : m 0 v = some t := hrow 0 hW
  have hcw : computeWidth m (wf + 1) 0 v t (wf + 1) 1 = wf + 1 := by
    have := computeWidth_all m (wf + 1) 0 v t
      (fun j hj => by simpa using hrow j (by omega)) (wf + 1) 1 (by omega) (by omega)
    omega
  rw [mergeRow_succ_some height wf (by omega) hm0, hcw, Nat.zero_add,
    mergeRow_stop height v wf _ (by omega)]

lemma mergeRows_nil_of_none (W H fuel v : Nat) (m : Mask) (hfv : v + fuel ≤ H)
    (h : ∀ a b, m a b = none) : (mergeRows W H fuel v m).1 = [] := by
  rw [List.eq_nil_iff_forall_not_mem]
  intro q hq
  obtain ⟨hb1, hb2, hw, hh, hv⟩ := mergeRows_bounds W H fuel v m hfv q hq
  have hcell := mergeRows_cells W H fuel v m q hq q.u q.v
    ⟨Nat.le_refl q.u, by omega, Nat.le_refl q.v, by omega⟩
  rw [h] at hcell
  exact absurd hcell (by simp)

lemma maskClear_fullMask (W H : Nat) (t : BlockType) (a b : Nat) :
    maskClear (fullMask W H t) 0 0 W H a b = none := by
  by_cases hab : 0 ≤ a ∧ a < 0 + W ∧ 0 ≤ b ∧ b < 0 + H
  · exact maskClear_of_mem hab
  · rw [maskClear_of_not_mem hab]
    unfold fullMask
    rw [if_neg (show ¬ (a < W ∧ b < H) by omega)]

lemma mergeSlice_fullMask (W H : Nat) (t : BlockType) (hW : 0 < W)
    (hH : 0 < H) : mergeSlice W H (fullMask W H t) = [⟨0, 0, W, H, t⟩] := by
  obtain ⟨hf, rfl⟩ : ∃ hf, H = hf + 1 := ⟨H - 1, by omega⟩
  have hch : computeHeight (fullMask W (hf + 1) t) (hf + 1) 0 0 W t (hf + 1) 1 =
      hf + 1 := by
    have := computeHeight_all (fullMask W (hf + 1) t) (hf + 1) 0 0 W t
      (fun j hj k hk => by
        unfold fullMask
        rw [if_pos ⟨by omega, by omega⟩]) (hf + 1) 1 (by omega) (by omega)
    omega
  have hrow0 : ∀ j, j < W → fullMask W (hf + 1) t j 0 = some t := by
    intro j hj
    unfold fullMask
    rw [if_pos ⟨hj, by omega⟩]
  show (mergeRows W (hf + 1) (hf + 1) 0 (fullMask W (hf + 1) t)).1 = _
  rw [mergeRows_succ_fst, mergeRow_full_row W (hf + 1) 0 _ t hW hrow0, hch]
  show [⟨0, 0, W, hf + 1, t⟩] ++ (mergeRows W (hf + 1) hf 1
    (maskClear (fullMask W (hf + 1) t) 0 0 W (hf + 1))).1 = [⟨0, 0, W, hf + 1, t⟩]
  rw [mergeRows_nil_of_none W (hf + 1) hf 1 _ (by omega)
    (fun a b => maskClear_fullMask W (hf + 1) t a b), List.append_nil]

lemma maskClear_rowMask (W v0 : Nat) (t : BlockType) (a b : Nat) :
    maskClear (rowMask W v0 t) 0 v0 W 1 a b = none := by
  by_cases hab : 0 ≤ a ∧ a < 0 + W ∧ v0 ≤ b ∧ b < v0 + 1
  · exact maskClear_of_mem hab
  · rw [maskClear_of_not_mem hab]
    unfold rowMask
    rw [if_neg (show ¬ (a < W ∧ b = v0) by omega)]

lemma mergeRows_rowMask (W H : Nat) (t : BlockType) (v0 : Nat) (hW : 0 < W)
    (hv0 : v0 < H) :
    ∀ fuel v, v + fuel = H → v ≤ v0 →
      (mergeRows W H fuel v (rowMask W v0 t)).1 = [⟨0, v0, W, 1, t⟩] := by
  intro fuel
  induction fuel with
  | zero =>
    intro v h1 h2
    omega
  | succ fuel ih =>
    intro v h1 h2
    by_cases hv : v = v0
    · subst hv
      have hrow : ∀ j, j < W → rowMask W v t j v = some t := by
        intro j hj
        unfold rowMask
        rw [if_pos ⟨hj, rfl⟩]
      have hch : computeHeight (rowMask W v t) H 0 v W t H 1 = 1 := by
        apply computeHeight_one
        rintro ⟨hvh, hall⟩
        have hbad := hall 0 hW
        unfold rowMask at hbad
        rw [if_neg (by omega)] at hbad
        exact absurd hbad (by simp)
      rw [mergeRows_succ_fst, mergeRow_full_row W H v _ t hW hrow, hch]
      show [⟨0, v, W, 1, t⟩] ++ (mergeRows W H fuel (v + 1)
        (maskClear (rowMask W v t) 0 v W 1)).1 = [⟨0, v, W, 1, t⟩]
      rw [mergeRows_nil_of_none W H fuel (v + 1) _ (by omega)
        (fun a b => maskClear_rowMask W v t a b), List.append_nil]
    · have hnone : ∀ a, rowMask W v0 t a v = none := by
        intro a
        unfold rowMask
        rw [if_neg (by omega)]
      rw [mergeRows_succ_fst, mergeRow_noneRow W H v W 0 _ hnone]
      show [] ++ (mergeRows W H fuel (v + 1) (rowMask W v0 t)).1 = _
      rw [List.nil_append]
      exact ih (v + 1) (by omega) (by omega)

lemma mergeSlice_rowMask (W H : Nat) (t : BlockType) (v0 : Nat) (hW : 0 < W)
    (hv0 : v0 < H) : mergeSlice W H (rowMask W v0 t) = [⟨0, v0, W, 1, t⟩] :=
  mergeRows_rowMask W H t v0 hW hv0 H 0 (by omega) (by omega)

lemma range_flatMap_single {α : Type} (g : Nat → List α) :
    ∀ n d0, d0 < n → (∀ d, d < n → d ≠ d0 → g d = []) →
      (List.range n).flatMap g = g d0 := by
  intro n
  induction n with
  | zero =>
    intro d0 hd
    omega
  | succ n ih =>
    intro d0 hd hz
    rw [List.range_succ, List.flatMap_append, List.flatMap_singleton]
    by_cases hdn : d0 = n
    · subst hdn
      rw [List.flatMap_eq_nil_iff.2 fun d hdm =>
        hz d (by simp at hdm; omega) (by simp at hdm; omega), List.nil_append]
    · rw [hz n (by omega) fun he => hdn he.symm, List.append_nil]
      exact ih d0 (by omega) fun d h1 h2 => hz d (by omega) h2

lemma slab_mask_front (y0 t : Nat) (ht : 0 < t) (hy : y0 < CHUNK_HEIGHT) :
    buildMask (slabB y0 t) Face.FRONT (CHUNK_SIZE - 1) =
      rowMask CHUNK_SIZE y0 t := by
  funext u v
  rw [buildMask_slab ht]
  unfold rowMask
  refine if_congr ?_ rfl rfl
  simp only [getCoords, faceNeighbor, inRange, CHUNK_SIZE, CHUNK_HEIGHT,
    true_and, and_true] at *
  omega

lemma slab_mask_front_none (y0 t d : Nat) (ht : 0 < t)
    (hd : d ≠ CHUNK_SIZE - 1) :
    ∀ u v, buildMask (slabB y0 t) Face.FRONT d u v = none := by
  intro u v
  rw [buildMask_slab ht]
  rw [if_neg]
  simp only [getCoords, faceNeighbor, inRange, CHUNK_SIZE, CHUNK_HEIGHT,
    true_and, and_true] at *
  omega

lemma slab_mask_back (y0 t : Nat) (ht : 0 < t) (hy : y0 < CHUNK_HEIGHT) :
    buildMask (slabB y0 t) Face.BACK (CHUNK_SIZE - 1) =
      rowMask CHUNK_SIZE y0 t := by
  funext u v
  rw [buildMask_slab ht]
  unfold rowMask
  refine if_congr ?_ rfl rfl
  simp only [getCoords, faceNeighbor, inRange, CHUNK_SIZE, CHUNK_HEIGHT,
    true_and, and_true] at *
  omega

lemma slab_mask_back_none (y0 t d : Nat) (ht : 0 < t)
    (hd : d ≠ CHUNK_SIZE - 1) :
    ∀ u v, buildMask (slabB y0 t) Face.BACK d u v = none := by
  intro u v
  rw [buildMask_slab ht]
  rw [if_neg]
  simp only [getCoords, faceNeighbor, inRange, CHUNK_SIZE, CHUNK_HEIGHT,
    true_and, and_true] at *
  omega

lemma slab_mask_top (y0 t : Nat) (ht : 0 < t) (hy : y0 < CHUNK_HEIGHT) :
    buildMask (slabB y0 t) Face.TOP y0 =
      fullMask CHUNK_SIZE CHUNK_SIZE t := by
  funext u v
  rw [buildMask_slab ht]
  unfold fullMask
  refine if_congr ?_ rfl rfl
  simp only [getCoords, faceNeighbor, inRange, CHUNK_SIZE, CHUNK_HEIGHT,
    true_and, and_true] at *
  omega

lemma slab_mask_top_none (y0 t d : Nat) (ht : 0 < t) (hd : d ≠ y0) :
    ∀ u v, buildMask (slabB y0 t) Face.TOP d u v = none := by
  intro u v
  rw [buildMask_slab ht]
  rw [if_neg]
  simp only [getCoords, faceNeighbor, inRange, CHUNK_SIZE, CHUNK_HEIGHT,
    true_and, and_true] at *
  omega

lemma slab_mask_bottom (y0 t : Nat) (ht : 0 < t) (hy : y0 < CHUNK_HEIGHT) :
    buildMask (slabB y0 t) Face.BOTTOM (CHUNK_HEIGHT - 1 - y0) =
      fullMask CHUNK_SIZE CHUNK_SIZE t := by
  funext u v
  rw [buildMask_slab ht]
  unfold fullMask
  refine if_congr ?_ rfl rfl
  simp only [getCoords, faceNeighbor, inRange, CHUNK_SIZE, CHUNK_HEIGHT,
    true_and, and_true] at *
  omega

lemma slab_mask_bottom_none (y0 t d : Nat) (ht : 0 < t)
    (hd : d ≠ CHUNK_HEIGHT - 1 - y0) :
    ∀ u v, buildMask (slabB y0 t) Face.BOTTOM d u v = none := by
  intro u v
  rw [buildMask_slab ht]
  rw [if_neg]
  simp only [getCoords, faceNeighbor, inRange, CHUNK_SIZE, CHUNK_HEIGHT,
    true_and, and_true] at *
  omega

lemma slab_mask_left (y0 t : Nat) (ht : 0 < t) (hy : y0 < CHUNK_HEIGHT) :
    buildMask (slabB y0 t) Face.LEFT 0 = rowMask CHUNK_SIZE y0 t := by
  funext u v
  rw [buildMask_slab ht]
  unfold rowMask
  refine if_congr ?_ rfl rfl
  simp only [getCoords, faceNeighbor, inRange, CHUNK_SIZE, CHUNK_HEIGHT,
    true_and, and_true] at *
  omega

lemma slab_mask_left_none (y0 t d : Nat) (ht : 0 < t) (hd : d ≠ 0) :
    ∀ u v, buildMask (slabB y0 t) Face.LEFT d u v = none := by
  intro u v
  rw [buildMask_slab ht]
  rw [if_neg]
  simp only [getCoords, faceNeighbor, inRange, CHUNK_SIZE, CHUNK_HEIGHT,
    true_and, and_true] at *
  omega

lemma slab_mask_right (y0 t : Nat) (ht : 0 < t) (hy : y0 < CHUNK_HEIGHT) :
    buildMask (slabB y0 t) Face.RIGHT 0 = rowMask CHUNK_SIZE y0 t := by
  funext u v
  rw [buildMask_slab ht]
  unfold rowMask
  refine if_congr ?_ rfl rfl
  simp only [getCoords, faceNeighbor, inRange, CHUNK_SIZE, CHUNK_HEIGHT,
    true_and, and_true] at *
  omega

lemma slab_mask_right_none (y0 t d : Nat) (ht : 0 < t) (hd : d ≠ 0) :
    ∀ u v, buildMask (slabB y0 t) Face.RIGHT d u v = none := by
  intro u v
  rw [buildMask_slab ht]
  rw [if_neg]
  simp only [getCoords, faceNeighbor, inRange, CHUNK_SIZE, CHUNK_HEIGHT,
    true_and, and_true] at *
  omega

lemma sliceQuads_nil {B : Nat → Nat} {f : Face} {d : Nat}
    (h : ∀ u v, buildMask B f d u v = none) : sliceQuads B f d = [] :=
  mergeSlice_nil h

lemma slab_slice_front (y0 t : Nat) (ht : 0 < t) (hy : y0 < CHUNK_HEIGHT) :
    sliceQuads (slabB y0 t) Face.FRONT (CHUNK_SIZE - 1) =
      [⟨0, y0, CHUNK_SIZE, 1, t⟩] := by
  show mergeSlice CHUNK_SIZE CHUNK_HEIGHT
    (buildMask (slabB y0 t) Face.FRONT (CHUNK_SIZE - 1)) = _
  rw [slab_mask_front y0 t ht hy]
  exact mergeSlice_rowMask CHUNK_SIZE CHUNK_HEIGHT t y0 (by decide) hy

lemma slab_slice_back (y0 t : Nat) (ht : 0 < t) (hy : y0 < CHUNK_HEIGHT) :
    sliceQuads (slabB y0 t) Face.BACK (CHUNK_SIZE - 1) =
      [⟨0, y0, CHUNK_SIZE, 1, t⟩] := by
  show mergeSlice CHUNK_SIZE CHUNK_HEIGHT
    (buildMask (slabB y0 t) Face.BACK (CHUNK_SIZE - 1)) = _
  rw [slab_mask_back y0 t ht hy]
  exact mergeSlice_rowMask CHUNK_SIZE CHUNK_HEIGHT t y0 (by decide) hy

lemma slab_slice_top (y0 t : Nat) (ht : 0 < t) (hy : y0 < CHUNK_HEIGHT) :
    sliceQuads (slabB y0 t) Face.TOP y0 =
      [⟨0, 0, CHUNK_SIZE, CHUNK_SIZE, t⟩] := by
  show mergeSlice CHUNK_SIZE CHUNK_SIZE
    (buildMask (slabB y0 t) Face.TOP y0) = _
  rw [slab_mask_top y0 t ht hy]
  exact mergeSlice_fullMask CHUNK_SIZE CHUNK_SIZE t (by decide) (by decide)

lemma slab_slice_bottom (y0 t : Nat) (ht : 0 < t) (hy : y0 < CHUNK_HEIGHT) :
    sliceQuads (slabB y0 t) Face.BOTTOM (CHUNK_HEIGHT - 1 - y0) =
      [⟨0, 0, CHUNK_SIZE, CHUNK_SIZE, t⟩] := by
  show mergeSlice CHUNK_SIZE CHUNK_SIZE
    (buildMask (slabB y0 t) Face.BOTTOM (CHUNK_HEIGHT - 1 - y0)) = _
  rw [slab_mask_bottom y0 t ht hy]
  exact mergeSlice_fullMask CHUNK_SIZE CHUNK_SIZE t (by decide) (by decide)

lemma slab_slice_left (y0 t : Nat) (ht : 0 < t) (hy : y0 < CHUNK_HEIGHT) :
    sliceQuads (slabB y0 t) Face.LEFT 0 = [⟨0, y0, CHUNK_SIZE, 1, t⟩] := by
  show mergeSlice CHUNK_SIZE CHUNK_HEIGHT
    (buildMask (slabB y0 t) Face.LEFT 0) = _
  rw [slab_mask_left y0 t ht hy]
  exact mergeSlice_rowMask CHUNK_SIZE CHUNK_HEIGHT t y0 (by decide) hy

lemma slab_slice_right (y0 t : Nat) (ht : 0 < t) (hy : y0 < CHUNK_HEIGHT) :
    sliceQuads (slabB y0 t) Face.RIGHT 0 = [⟨0, y0, CHUNK_SIZE, 1, t⟩] := by
  show mergeSlice CHUNK_SIZE CHUNK_HEIGHT
    (buildMask (slabB y0 t) Face.RIGHT 0) = _
  rw [slab_mask_right y0 t ht hy]
  exact mergeSlice_rowMask CHUNK_SIZE CHUNK_HEIGHT t y0 (by decide) hy

lemma slab_buildMeshQuads (y0 t : Nat) (ht : 0 < t) (hy : y0 < CHUNK_HEIGHT) :
    buildMeshQuads (slabB y0 t) =
      [(Face.FRONT, CHUNK_SIZE - 1, ⟨0, y0, CHUNK_SIZE, 1, t⟩),
       (Face.BACK, CHUNK_SIZE - 1, ⟨0, y0, CHUNK_SIZE, 1, t⟩),
       (Face.TOP, y0, ⟨0, 0, CHUNK_SIZE, CHUNK_SIZE, t⟩),
       (Face.BOTTOM, CHUNK_HEIGHT - 1 - y0, ⟨0, 0, CHUNK_SIZE, CHUNK_SIZE, t⟩),
       (Face.LEFT, 0, ⟨0, y0, CHUNK_SIZE, 1, t⟩),
       (Face.RIGHT, 0, ⟨0, y0, CHUNK_SIZE, 1, t⟩)] := by
  simp only [buildMeshQuads, faceList, List.flatMap_cons, List.flatMap_nil,
    List.append_nil, meshDepthRange]
  rw [range_flatMap_single
      (fun d => (sliceQuads (slabB y0 t) Face.FRONT d).map fun q =>
        (Face.FRONT, d, q))
      CHUNK_HEIGHT (CHUNK_SIZE - 1) (by decide)
      (fun d _ hne => by
        simp only [sliceQuads_nil (slab_mask_front_none y0 t d ht hne),
          List.map_nil]),
    range_flatMap_single
      (fun d => (sliceQuads (slabB y0 t) Face.BACK d).map fun q =>
        (Face.BACK, d, q))
      CHUNK_HEIGHT (CHUNK_SIZE - 1) (by decide)
      (fun d _ hne => by
        simp only [sliceQuads_nil (slab_mask_back_none y0 t d ht hne),
          List.map_nil]),
    range_flatMap_single
      (fun d => (sliceQuads (slabB y0 t) Face.TOP d).map fun q =>
        (Face.TOP, d, q))
      CHUNK_HEIGHT y0 hy
      (fun d _ hne => by
        simp only [sliceQuads_nil (slab_mask_top_none y0 t d ht hne),
          List.map_nil]),
    range_flatMap_single
      (fun d => (sliceQuads (slabB y0 t) Face.BOTTOM d).map fun q =>
        (Face.BOTTOM, d, q))
      CHUNK_HEIGHT (CHUNK_HEIGHT - 1 - y0) (by omega)
      (fun d _ hne => by
        simp only [sliceQuads_nil (slab_mask_bottom_none y0 t d ht hne),
          List.map_nil]),
    range_flatMap_single
      (fun d => (sliceQuads (slabB y0 t) Face.LEFT d).map fun q =>
        (Face.LEFT, d, q))
      CHUNK_HEIGHT 0 (by decide)
      (fun d _ hne => by
        simp only [sliceQuads_nil (slab_mask_left_none y0 t d ht hne),
          List.map_nil]),
    range_flatMap_single
      (fun d => (sliceQuads (slabB y0 t) Face.RIGHT d).map fun q =>
        (Face.RIGHT, d, q))
      CHUNK_HEIGHT 0 (by decide)
      (fun d _ hne => by
        simp only [sliceQuads_nil (slab_mask_right_none y0 t d ht hne),
          List.map_nil])]
  rw [slab_slice_front y0 t ht hy, slab_slice_back y0 t ht hy,
    slab_slice_top y0 t ht hy, slab_slice_bottom y0 t ht hy,
    slab_slice_left y0 t ht hy, slab_slice_right y0 t ht hy]
  rfl

/-- C7 counterexample: at the concrete full-slab configuration (layer 8,
block type 1, empty space above and below) `buildMesh` emits 6 quads, not
the 2 quads the claim states — besides the top and bottom `W×D` quads, the
slab's four side rims border the out-of-range region, which reads as empty,
so four `W×1` side quads are also emitted. -/
theorem uniform_slab_counterexample :
    (buildMeshQuads (slabB 8 1)).length ≠ 2 := by
  rw [slab_buildMeshQuads 8 1 (by decide) (by decide)]
  decide

/-- C7 (amended): a full `W×D` single-layer slab of one block type with
empty space above and below yields exactly 6 quads: one top-facing and one
bottom-facing quad of size `W×D` (demonstrating the full-slice merge), plus
four `W×1` rim quads for the slab's outer side faces, which are exposed
because out-of-range neighbours read as empty. -/
theorem uniform_slab_amended (y0 t : Nat) (ht : 0 < t) (_ht2 : t < 256)
    (_hy0 : 0 < y0) (hy1 : y0 + 1 < CHUNK_HEIGHT) :
    buildMeshQuads (slabB y0 t) =
      [(Face.FRONT, CHUNK_SIZE - 1, ⟨0, y0, CHUNK_SIZE, 1, t⟩),
       (Face.BACK, CHUNK_SIZE - 1, ⟨0, y0, CHUNK_SIZE, 1, t⟩),
       (Face.TOP, y0, ⟨0, 0, CHUNK_SIZE, CHUNK_SIZE, t⟩),
       (Face.BOTTOM, CHUNK_HEIGHT - 1 - y0, ⟨0, 0, CHUNK_SIZE, CHUNK_SIZE, t⟩),
       (Face.LEFT, 0, ⟨0, y0, CHUNK_SIZE, 1, t⟩),
       (Face.RIGHT, 0, ⟨0, y0, CHUNK_SIZE, 1, t⟩)] ∧
    (buildMeshQuads (slabB y0 t)).length = 6 := by
  refine ⟨slab_buildMeshQuads y0 t ht (by omega), ?_⟩
  rw [slab_buildMeshQuads y0 t ht (by omega)]
  rfl

/-- Witness for C7 (amended) at the concrete slab with layer 8 and block
type 1. -/
theorem uniform_slab_amended_witness :
    buildMeshQuads (slabB 8 1) =
      [(Face.FRONT, CHUNK_SIZE - 1, ⟨0, 8, CHUNK_SIZE, 1, 1⟩),
       (Face.BACK, CHUNK_SIZE - 1, ⟨0, 8, CHUNK_SIZE, 1, 1⟩),
       (Face.TOP, 8, ⟨0, 0, CHUNK_SIZE, CHUNK_SIZE, 1⟩),
       (Face.BOTTOM, CHUNK_HEIGHT - 1 - 8, ⟨0, 0, CHUNK_SIZE, CHUNK_SIZE, 1⟩),
       (Face.LEFT, 0, ⟨0, 8, CHUNK_SIZE, 1, 1⟩),
       (Face.RIGHT, 0, ⟨0, 8, CHUNK_SIZE, 1, 1⟩)] ∧
    (buildMeshQuads (slabB 8 1)).length = 6 :=
  uniform_slab_amended 8 1 (by decide) (by decide) (by decide) (by decide)

end AGICraft
